import Mathlib

/-!
A formal model of the ProcureSense procurement service, shallowly embedded
from its Python sources, together with proofs of the specification claims.

Modelled modules:
  * `src/context/token_counter.py`   (`TokenCounter`)
  * `src/context/gpc_manager.py`     (`GPCManager.validate_contract_text`)
  * `src/context/budget_config.py`   (`ContextBudgetConfig`)
  * `src/context/context_manager.py` (`ContextManager`: build, prune, simulate)
  * `src/models/context_types.py`    (layer records and token calculation)
  * `src/critic/gp_critic.py`        (`_determine_action`,
                                      `_calculate_compliance_score`,
                                      `_fix_unauthorized_discount`)
  * `src/agents/negotiation_agent.py` (`_validate_request_payload`)
  * `src/workflow/integration_manager.py` (`_update_running_average`)

Modelling conventions: Python `float` arithmetic is modelled by exact
rational arithmetic over `ℚ` (all constants appearing in the code are
short decimal literals, and the claims are about the arithmetic formulas,
not about binary rounding); Python `str` is modelled by `String` with the
ASCII meanings of `\w`, whitespace and lower-casing (every string occurring
in the repository's data is ASCII); Python dictionaries are modelled by
insertion-ordered association lists, matching CPython dict semantics.
-/

namespace ProcureSense

/-! ## Python string primitives -/

/-- Python whitespace as used by `str.split`, `str.strip` and the regex
class `\s` (ASCII range): space, tab, newline, carriage return, vertical
tab, form feed. -/
def pyIsSpace (c : Char) : Bool :=
  c = ' ' || c = '\t' || c = '\n' || c = '\x0d' || c = '\x0b' || c = '\x0c'

/-- The regex class `\w` (ASCII range): letters, digits and underscore. -/
def pyIsWord (c : Char) : Bool :=
  c.isAlpha || c.isDigit || c = '_'

/-- Model of `text.lower()` on a character (ASCII). -/
def pyLowerChar (c : Char) : Char := c.toLower

/-- Model of `text.lower()` (ASCII). -/
def pyLower (s : String) : String := String.mk (s.toList.map pyLowerChar)

/-- True when `not text or not text.strip()` holds in Python:
the string is empty or consists only of whitespace. -/
def pyStripEmpty (s : String) : Bool := s.toList.all pyIsSpace

/-- Number of words of `text.split()`: the number of maximal runs of
non-whitespace characters. The flag records whether the previous character
was inside a word. -/
def countWordsAux : List Char → Bool → Nat
  | [], _ => 0
  | c :: cs, inWord =>
      if pyIsSpace c then countWordsAux cs false
      else (if inWord then 0 else 1) + countWordsAux cs true

/-- Model of `len(text.split())`. -/
def pyWordCount (s : String) : Nat := countWordsAux s.toList false

/-- Model of `len(re.findall(r'[^\w\s]', text))`: the punctuation / special
characters of the text. -/
def pySpecialCount (s : String) : Nat :=
  (s.toList.filter (fun c => !(pyIsWord c) && !(pyIsSpace c))).length

/-- Model of `needle in hay` for lists of characters (substring test). -/
def listContains : List Char → List Char → Bool
  | _, [] => true
  | [], _ :: _ => false
  | c :: cs, needle => needle.isPrefixOf (c :: cs) || listContains cs needle

/-- Python `needle in hay` on strings. -/
def strContains (hay needle : String) : Bool :=
  listContains hay.toList needle.toList

/-! ## TokenCounter (`src/context/token_counter.py`) -/

/-- Model of `TOKENS_PER_WORD.get(content_type, 1.3)`: tokens-per-word multiplier
for a declared content type, as a (numerator, denominator) pair:
text 1.3, code 1.5, json 1.2, technical 1.4, default 1.3. -/
def tokensPerWord (contentType : String) : Nat × Nat :=
  if contentType = "text" then (13, 10)
  else if contentType = "code" then (3, 2)
  else if contentType = "json" then (6, 5)
  else if contentType = "technical" then (7, 5)
  else (13, 10)

/-- The multiplier as a rational number. -/
def tokensPerWordQ (contentType : String) : ℚ :=
  ((tokensPerWord contentType).1 : ℚ) / ((tokensPerWord contentType).2 : ℚ)

/-- Model of `TokenCounter.count_tokens`: word count plus half the punctuation
count, scaled by the content-type multiplier, truncated by `int(...)`,
with a minimum of 1 for any input that is not empty or whitespace-only.
`int((words + special · 0.5) · (a/b))` for non-negative operands is exactly
the natural-number division `((2·words + special) · a) / (2·b)`; the
definition uses the latter so that it evaluates inside the kernel, and
`countTokens_eq_floorSpec` below proves it equal to the floor formula. -/
def countTokens (text : String) (contentType : String) : Nat :=
  if pyStripEmpty text then 0
  else
    let words := pyWordCount text
    let specialChars := pySpecialCount text
    let multiplier := tokensPerWord contentType
    let estimatedTokens := ((2 * words + specialChars) * multiplier.1) / (2 * multiplier.2)
    max 1 estimatedTokens

/-- Model of `TokenCounter.count_list_tokens`. -/
def countListTokens (items : List String) (contentType : String) : Nat :=
  (items.map (fun item => countTokens item contentType)).sum

/-! ## Python values and dictionary representations

Python dictionaries are modelled as insertion-ordered association lists
(CPython preserves insertion order). `TokenCounter.count_dict_tokens`
stringifies a dictionary with `str(data)` before counting; the characters
`\x7b` and `\x7d` below are the literal braces of that printable form. -/

/-- A single-quote character (`'`), as used by `str(dict)`. -/
def squote : String := String.singleton (Char.ofNat 39)

/-- A Python value that can appear in the dictionaries of this code base:
integers, floats and strings. -/
inductive PyVal where
  | pyInt (n : ℤ)
  | pyFloat (q : ℚ)
  | pyStr (s : String)
deriving DecidableEq

/-- Model of `repr` of a Python value inside `str(dict)`. Floats in this code base
are always integral (budget thresholds such as `50000.0`). -/
def PyVal.pyRepr : PyVal → String
  | .pyInt n => toString n
  | .pyFloat q => if q.den = 1 then toString q.num ++ ".0" else toString q.num ++ "/" ++ toString q.den
  | .pyStr s => squote ++ s ++ squote

/-- Model of `str(data)` for a `Dict[str, value]`. -/
def pyDictRepr (pairs : List (String × PyVal)) : String :=
  "\x7b" ++ String.intercalate ", " (pairs.map fun kv => squote ++ kv.1 ++ squote ++ ": " ++ kv.2.pyRepr) ++ "\x7d"

/-- Model of `str(data)` for a `Dict[str, str]` (category playbooks). -/
def pyDictReprStr (pairs : List (String × String)) : String :=
  "\x7b" ++ String.intercalate ", " (pairs.map fun kv => squote ++ kv.1 ++ squote ++ ": " ++ squote ++ kv.2 ++ squote) ++ "\x7d"

/-- Model of `TokenCounter.count_dict_tokens` for value dictionaries. -/
def countDictTokens (pairs : List (String × PyVal)) (contentType : String) : Nat :=
  if pairs.isEmpty then 0 else countTokens (pyDictRepr pairs) contentType

/-- Model of `TokenCounter.count_dict_tokens` for string dictionaries. -/
def countDictTokensStr (pairs : List (String × String)) (contentType : String) : Nat :=
  if pairs.isEmpty then 0 else countTokens (pyDictReprStr pairs) contentType

/-! ## Context layer records (`src/models/context_types.py`) -/

/-- Model of `GlobalPolicyContext` (GPC): never-pruned enterprise policy layer. -/
structure GlobalPolicyContext where
  enterprise_okrs : List String := []
  prohibited_clauses : List String := []
  required_clauses : List String := []
  budget_thresholds : List (String × PyVal) := []
  compliance_guardrails : List String := []
  legal_requirements : List String := []
  token_count : Nat := 0
deriving DecidableEq

/-- Token total of a GPC layer, as computed by
`GlobalPolicyContext.calculate_tokens`. -/
def gpcTokenTotal (g : GlobalPolicyContext) : Nat :=
  countListTokens g.enterprise_okrs "text"
    + countListTokens g.prohibited_clauses "technical"
    + countListTokens g.required_clauses "technical"
    + countDictTokens g.budget_thresholds "json"
    + countListTokens g.compliance_guardrails "technical"
    + countListTokens g.legal_requirements "technical"

/-- Model of `GlobalPolicyContext.calculate_tokens` (it stores the total in
`token_count` and returns it; the model returns the updated record). -/
def GlobalPolicyContext.calculateTokens (g : GlobalPolicyContext) : GlobalPolicyContext :=
  { g with token_count := gpcTokenTotal g }

/-- Model of `DomainStrategyContext` (DSC). -/
structure DomainStrategyContext where
  category_playbooks : List (String × String) := []
  vendor_guidelines : List String := []
  market_intelligence : List String := []
  historical_patterns : List String := []
  token_count : Nat := 0
deriving DecidableEq

/-- Token total of a DSC layer (`DomainStrategyContext.calculate_tokens`). -/
def dscTokenTotal (d : DomainStrategyContext) : Nat :=
  countDictTokensStr d.category_playbooks "text"
    + countListTokens d.vendor_guidelines "text"
    + countListTokens d.market_intelligence "text"
    + countListTokens d.historical_patterns "text"

/-- Model of `DomainStrategyContext.calculate_tokens`. -/
def DomainStrategyContext.calculateTokens (d : DomainStrategyContext) : DomainStrategyContext :=
  { d with token_count := dscTokenTotal d }

/-- Model of `TaskSessionContext` (TSC). -/
structure TaskSessionContext where
  conversation_turns : List String := []
  tool_interactions : List String := []
  session_findings : List String := []
  user_preferences : List (String × PyVal) := []
  token_count : Nat := 0
deriving DecidableEq

/-- Token total of a TSC layer (`TaskSessionContext.calculate_tokens`). -/
def tscTokenTotal (t : TaskSessionContext) : Nat :=
  countListTokens t.conversation_turns "text"
    + countListTokens t.tool_interactions "technical"
    + countListTokens t.session_findings "text"
    + countDictTokens t.user_preferences "json"

/-- Model of `TaskSessionContext.calculate_tokens`. -/
def TaskSessionContext.calculateTokens (t : TaskSessionContext) : TaskSessionContext :=
  { t with token_count := tscTokenTotal t }

/-- Model of `EphemeralToolContext` (ETC). -/
structure EphemeralToolContext where
  quotes : List String := []
  budgets : List String := []
  vendor_data : List String := []
  api_responses : List String := []
  token_count : Nat := 0
deriving DecidableEq

/-- Token total of an ETC layer (`EphemeralToolContext.calculate_tokens`). -/
def etcTokenTotal (e : EphemeralToolContext) : Nat :=
  countListTokens e.quotes "json"
    + countListTokens e.budgets "json"
    + countListTokens e.vendor_data "json"
    + countListTokens e.api_responses "json"

/-- Model of `EphemeralToolContext.calculate_tokens`. -/
def EphemeralToolContext.calculateTokens (e : EphemeralToolContext) : EphemeralToolContext :=
  { e with token_count := etcTokenTotal e }

/-- Model of `LayeredContext`. -/
structure LayeredContext where
  gpc : GlobalPolicyContext := {}
  dsc : DomainStrategyContext := {}
  tsc : TaskSessionContext := {}
  etc : EphemeralToolContext := {}
  total_tokens : Nat := 0
  budget_compliance : Bool := true
deriving DecidableEq

/-- Model of `LayeredContext.calculate_total_tokens`: recompute every layer's
`token_count` and store the grand total. -/
def LayeredContext.calculateTotalTokens (c : LayeredContext) : LayeredContext :=
  let gpc := c.gpc.calculateTokens
  let dsc := c.dsc.calculateTokens
  let tsc := c.tsc.calculateTokens
  let etc := c.etc.calculateTokens
  { c with gpc := gpc, dsc := dsc, tsc := tsc, etc := etc,
           total_tokens := gpc.token_count + dsc.token_count + tsc.token_count + etc.token_count }

/-! ## GPC Manager (`src/context/gpc_manager.py`)

The manager loads its policies from `src/config/settings.py`; the default
configuration values are embedded below. -/

/-- Model of `settings.prohibited_clauses_list` (default configuration). -/
def settingsProhibitedClauses : List String :=
  ["liability_waiver", "indemnification", "unlimited_liability"]

/-- Model of `settings.required_clauses_list` (default configuration). -/
def settingsRequiredClauses : List String :=
  ["warranty", "data_protection", "termination_rights"]

/-- Model of `settings.budget_thresholds_dict` (default configuration; values are
parsed with `float(...)`). -/
def settingsBudgetThresholds : List (String × PyVal) :=
  [("software", .pyFloat 50000), ("hardware", .pyFloat 100000), ("services", .pyFloat 25000)]

/-- Model of `GPCManager._load_enterprise_okrs`. -/
def loadEnterpriseOkrs : List String :=
  ["Reduce procurement costs by 15% while maintaining quality standards",
   "Achieve 95% contract compliance across all vendor agreements",
   "Implement sustainable procurement practices for 80% of suppliers",
   "Maintain vendor relationship satisfaction score above 4.2/5.0",
   "Ensure 100% data protection compliance in all vendor contracts"]

/-- Model of `GPCManager._load_compliance_guardrails`. -/
def loadComplianceGuardrails : List String :=
  ["All contracts must include data protection clauses per GDPR requirements",
   "Liability caps must not exceed 2x annual contract value",
   "Termination clauses must allow 30-day notice period minimum",
   "Warranty periods must be minimum 12 months for hardware, 6 months for software",
   "Payment terms must not exceed 60 days from invoice receipt"]

/-- Model of `GPCManager._load_legal_requirements`. -/
def loadLegalRequirements : List String :=
  ["Contracts must comply with local jurisdiction laws",
   "Intellectual property rights must be clearly defined",
   "Confidentiality agreements must be mutual and time-bound",
   "Force majeure clauses must include pandemic and cyber security events",
   "Dispute resolution must specify arbitration process and jurisdiction"]

/-- The GPC snapshot built by `GPCManager._load_policies` from the default
configuration (with `calculate_tokens` applied). -/
def gpcSnapshot : GlobalPolicyContext :=
  GlobalPolicyContext.calculateTokens
    { enterprise_okrs := loadEnterpriseOkrs
      prohibited_clauses := settingsProhibitedClauses
      required_clauses := settingsRequiredClauses
      budget_thresholds := settingsBudgetThresholds
      compliance_guardrails := loadComplianceGuardrails
      legal_requirements := loadLegalRequirements }

/-- Model of `PolicyViolation` of `src/models/base_types.py` (the GPC manager's
violation record, with a string-typed kind). -/
structure PolicyViolationBase where
  violation_type : String
  description : String
  severity : String
  auto_fixable : Bool
deriving DecidableEq

/-- Model of `PolicyValidationResult` of `src/context/gpc_manager.py`. -/
structure PolicyValidationResult where
  is_valid : Bool
  violations : List PolicyViolationBase
  compliance_score : ℚ
  flagged_clauses : List String

/-- The violation emitted for a prohibited clause found in the text. -/
def mkProhibitedViolation (prohibitedClause : String) : PolicyViolationBase :=
  { violation_type := "prohibited_clause"
    description := "Contract contains prohibited clause: " ++ prohibitedClause
    severity := "high"
    auto_fixable := true }

/-- The violation emitted for a required clause missing from the text. -/
def mkMissingRequiredViolation (requiredClause : String) : PolicyViolationBase :=
  { violation_type := "missing_required_clause"
    description := "Contract missing required clause: " ++ requiredClause
    severity := "high"
    auto_fixable := true }

/-- Model of `GPCManager.validate_contract_text`: lowercase the text once, flag
every prohibited clause that occurs as a substring and every required
clause that does not, and score `max(0, (checks − violations)/checks)`.
The two `for` loops are rendered as `filter`/`map` over the clause lists,
preserving order (prohibited-clause violations first). -/
def validateContractText (gpc : GlobalPolicyContext) (contractText : String) :
    PolicyValidationResult :=
  let textLower := pyLower contractText
  let flagged := gpc.prohibited_clauses.filter fun pc => strContains textLower (pyLower pc)
  let prohibitedViolations := flagged.map mkProhibitedViolation
  let missingViolations :=
    (gpc.required_clauses.filter fun rc => !(strContains textLower (pyLower rc))).map
      mkMissingRequiredViolation
  let violations := prohibitedViolations ++ missingViolations
  let totalChecks := gpc.prohibited_clauses.length + gpc.required_clauses.length
  let complianceScore : ℚ :=
    if totalChecks > 0 then
      max 0 (((totalChecks : ℚ) - violations.length) / (totalChecks : ℚ))
    else 1
  { is_valid := violations.isEmpty
    violations := violations
    compliance_score := complianceScore
    flagged_clauses := flagged }

/-! ## Context Manager (`src/context/context_manager.py`) -/

/-- Model of `list(set(xs))` for a list of strings. CPython's set iteration order is
unspecified (string hashing is randomized); the model fixes the
first-occurrence order. Every use in the source joins the result into a
summary sentence whose token count does not depend on the order. -/
def pySetListAux : List String → List String → List String
  | [], _ => []
  | x :: xs, seen => if x ∈ seen then pySetListAux xs seen else x :: pySetListAux xs (x :: seen)

/-- Model of `list(set(xs))`, see `pySetListAux`. -/
def pySetList (xs : List String) : List String := pySetListAux xs []

/-- Model of `ContextManager._summarize_conversation_turns`. -/
def summarizeConversationTurns (turns : List String) : String :=
  if turns.isEmpty then ""
  else
    let keyTopics := turns.filterMap fun turn =>
      if strContains (pyLower turn) "negotiation" then some "negotiation discussion"
      else if strContains (pyLower turn) "compliance" then some "compliance review"
      else if strContains (pyLower turn) "forecast" then some "budget forecasting"
      else none
    let uniqueTopics := pySetList keyTopics
    if !uniqueTopics.isEmpty then
      "Previous discussion covered: " ++ String.intercalate ", " uniqueTopics
    else
      "Previous conversation (" ++ toString turns.length ++ " turns)"

/-- Model of `ContextManager._summarize_tool_interactions`. -/
def summarizeToolInteractions (interactions : List String) : String :=
  if interactions.isEmpty then ""
  else
    let interactionTypes := interactions.filterMap fun interaction =>
      if strContains (pyLower interaction) "api_call" then some "API calls"
      else if strContains (pyLower interaction) "database" then some "database queries"
      else if strContains (pyLower interaction) "calculation" then some "calculations"
      else none
    let uniqueTypes := pySetList interactionTypes
    if !uniqueTypes.isEmpty then
      "Previous tool usage: " ++ String.intercalate ", " uniqueTypes
        ++ " (" ++ toString interactions.length ++ " interactions)"
    else
      "Previous tool interactions (" ++ toString interactions.length ++ " total)"

/-- Model of `any(keyword in text.lower() for keyword in keywords)`. -/
def containsAnyKeyword (text : String) (keywords : List String) : Bool :=
  keywords.any fun kw => strContains (pyLower text) kw

/-- Model of `ContextManager._compress_session_findings`. -/
def compressSessionFindings (findings : List String) : List String :=
  if findings.length ≤ 3 then findings
  else
    let highPriority := findings.filter fun f =>
      containsAnyKeyword f ["critical", "violation", "risk", "required"]
    let mediumPriority := findings.filter fun f =>
      !(containsAnyKeyword f ["critical", "violation", "risk", "required"])
    let result := highPriority ++
      (if !mediumPriority.isEmpty then
        (if mediumPriority.length > 2 then
          ["Additional findings: " ++ toString mediumPriority.length
             ++ " items including insights on procurement patterns"]
         else mediumPriority)
       else [])
    result.take 3

/-- Model of `ContextManager._compress_market_intelligence`. -/
def compressMarketIntelligence (intelligence : List String) : List String :=
  if intelligence.length ≤ 2 then intelligence
  else
    let trends := intelligence.filter fun item => strContains (pyLower item) "trend"
    let pricing := intelligence.filter fun item =>
      !(strContains (pyLower item) "trend") && strContains (pyLower item) "pric"
    let keyInsights := intelligence.filter fun item =>
      !(strContains (pyLower item) "trend") && !(strContains (pyLower item) "pric")
    let result :=
      (if !trends.isEmpty then
        (if trends.length > 1 then
          ["Market trends: " ++ toString trends.length ++ " key trends identified"]
         else trends)
       else []) ++
      (if !pricing.isEmpty then
        (if pricing.length > 1 then
          ["Pricing intelligence: " ++ toString pricing.length ++ " pricing insights available"]
         else pricing)
       else []) ++
      keyInsights.take 1
    result.take 2

/-- Model of `ContextManager._compress_historical_patterns`. -/
def compressHistoricalPatterns (patterns : List String) : List String :=
  if patterns.length ≤ 2 then patterns
  else
    let seasonal := patterns.filter fun p => strContains (pyLower p) "seasonal"
    let negotiation := patterns.filter fun p =>
      !(strContains (pyLower p) "seasonal") && strContains (pyLower p) "negotiation"
    let prioritized := patterns.filter fun p =>
      !(strContains (pyLower p) "seasonal") && !(strContains (pyLower p) "negotiation")
    let result := negotiation.take 1 ++ seasonal.take 1
    let result := result ++ prioritized.take (2 - result.length)
    result.take 2

/-- Model of `ContextManager._prioritize_vendor_guidelines`. -/
def prioritizeVendorGuidelines (guidelines : List String) : List String :=
  if guidelines.length ≤ 3 then guidelines
  else
    let highPriority := guidelines.filter fun g =>
      containsAnyKeyword g ["compliance", "risk", "required", "mandatory"]
    let mediumPriority := guidelines.filter fun g =>
      !(containsAnyKeyword g ["compliance", "risk", "required", "mandatory"])
    let result := highPriority.take 2
    let result := result ++ mediumPriority.take (3 - result.length)
    result.take 3

/-- Model of `ContextManager._compress_category_playbooks`. -/
def compressCategoryPlaybooks (playbooks : List (String × String)) : List (String × String) :=
  if playbooks.length ≤ 1 then playbooks
  else
    playbooks.map fun kv =>
      let category := kv.1
      let playbook := kv.2
      if playbook.length > 200 then
        if strContains (pyLower playbook) "strategy" then
          (category, "Strategic playbook for " ++ category ++ " with key negotiation points")
        else
          (category, "Procurement playbook for " ++ category ++ " category")
      else (category, playbook)

/-- Model of `ContextManager._prune_etc_layer`: complete removal whenever any
tokens are to be removed (a fresh `EphemeralToolContext()` whose
`token_count` field is the dataclass default 0). -/
def pruneEtcLayer (e : EphemeralToolContext) (tokensToRemove : ℤ) : EphemeralToolContext :=
  if tokensToRemove > 0 then {} else e

/-- Model of `ContextManager._prune_tsc_layer`: rolling summaries with recency
bias. `calculate_tokens` runs before the lists are mutated, so the
returned record's `token_count` is the pre-mutation total. -/
def pruneTscLayer (t : TaskSessionContext) (tokensToRemove : ℤ) : TaskSessionContext :=
  if tokensToRemove ≤ 0 then t
  else
    let currentTokens := tscTokenTotal t
    let turns :=
      if t.conversation_turns.length > 3 then
        let oldTurns := t.conversation_turns.take (t.conversation_turns.length - 3)
        if !oldTurns.isEmpty then
          summarizeConversationTurns oldTurns
            :: t.conversation_turns.drop (t.conversation_turns.length - 3)
        else t.conversation_turns
      else t.conversation_turns
    let interactions :=
      if t.tool_interactions.length > 5 then
        let oldInteractions := t.tool_interactions.take (t.tool_interactions.length - 5)
        if !oldInteractions.isEmpty then
          summarizeToolInteractions oldInteractions
            :: t.tool_interactions.drop (t.tool_interactions.length - 5)
        else t.tool_interactions
      else t.tool_interactions
    let findings :=
      if t.session_findings.length > 3 then compressSessionFindings t.session_findings
      else t.session_findings
    { t with conversation_turns := turns, tool_interactions := interactions,
             session_findings := findings, token_count := currentTokens }

/-- Model of `ContextManager._prune_dsc_layer`: intelligent summarization. As with
the TSC layer, `token_count` is the pre-mutation total. -/
def pruneDscLayer (d : DomainStrategyContext) (tokensToRemove : ℤ) : DomainStrategyContext :=
  if tokensToRemove ≤ 0 then d
  else
    let currentTokens := dscTokenTotal d
    let market :=
      if d.market_intelligence.length > 2 then compressMarketIntelligence d.market_intelligence
      else d.market_intelligence
    let patterns :=
      if d.historical_patterns.length > 2 then compressHistoricalPatterns d.historical_patterns
      else d.historical_patterns
    let guidelines :=
      if d.vendor_guidelines.length > 3 then prioritizeVendorGuidelines d.vendor_guidelines
      else d.vendor_guidelines
    let playbooks :=
      if !d.category_playbooks.isEmpty then compressCategoryPlaybooks d.category_playbooks
      else d.category_playbooks
    { d with category_playbooks := playbooks, vendor_guidelines := guidelines,
             market_intelligence := market, historical_patterns := patterns,
             token_count := currentTokens }

/-- Phase 1 of `ContextManager.prune_context`: prune the ETC completely
(ephemeral data). Returns the new layer and the updated
`tokens_to_remove` (a Python `int`, which can go negative because the ETC
phase removes the whole layer even when that overshoots the excess — so
it is modelled as `ℤ`). -/
def pruneContextPhase1 (c : LayeredContext) (tokensToRemove : ℤ) :
    EphemeralToolContext × ℤ :=
  if tokensToRemove > 0 ∧ c.etc.token_count > 0 then
    let etcTokensBefore : ℤ := c.etc.token_count
    let etcNew := pruneEtcLayer c.etc tokensToRemove
    let etcTokensRemoved := etcTokensBefore - (etcNew.token_count : ℤ)
    (etcNew, tokensToRemove - etcTokensRemoved)
  else (c.etc, tokensToRemove)

/-- Phase 2 of `ContextManager.prune_context`: prune the TSC with rolling
summaries (budgeted at up to 75% reduction; `int(count · 0.75)` is
`⌊3·count/4⌋` exactly). -/
def pruneContextPhase2 (c : LayeredContext) (tokensToRemove : ℤ) :
    TaskSessionContext × ℤ :=
  if tokensToRemove > 0 ∧ c.tsc.token_count > 0 then
    let tscTokensBefore : ℤ := c.tsc.token_count
    let maxTscReduction : ℤ := (3 * (c.tsc.token_count : ℤ)) / 4
    let tscReduction := min tokensToRemove maxTscReduction
    let tscNew := pruneTscLayer c.tsc tscReduction
    let tscTokensRemoved := tscTokensBefore - (tscNew.token_count : ℤ)
    (tscNew, tokensToRemove - tscTokensRemoved)
  else (c.tsc, tokensToRemove)

/-- Phase 3 of `ContextManager.prune_context`: prune the DSC with
intelligent summarization (budgeted at up to 60% reduction;
`int(count · 0.60)` is `⌊3·count/5⌋` exactly). -/
def pruneContextPhase3 (c : LayeredContext) (tokensToRemove : ℤ) :
    DomainStrategyContext × ℤ :=
  if tokensToRemove > 0 ∧ c.dsc.token_count > 0 then
    let dscTokensBefore : ℤ := c.dsc.token_count
    let maxDscReduction : ℤ := (3 * (c.dsc.token_count : ℤ)) / 5
    let dscReduction := min tokensToRemove maxDscReduction
    let dscNew := pruneDscLayer c.dsc dscReduction
    let dscTokensRemoved := dscTokensBefore - (dscNew.token_count : ℤ)
    (dscNew, tokensToRemove - dscTokensRemoved)
  else (c.dsc, tokensToRemove)

/-- Model of `ContextManager.prune_context`: walk the hierarchy ETC → TSC → DSC
(phases 1–3 above), never touching the GPC (phase 4 is only logging), then
recount every layer. -/
def pruneContext (c : LayeredContext) (targetTokens : Nat) : LayeredContext :=
  if c.total_tokens ≤ targetTokens then c
  else
    let tokensToRemove0 : ℤ := (c.total_tokens : ℤ) - targetTokens
    let phase1 := pruneContextPhase1 c tokensToRemove0
    let phase2 := pruneContextPhase2 c phase1.2
    let phase3 := pruneContextPhase3 c phase2.2
    LayeredContext.calculateTotalTokens
      { c with etc := phase1.1, tsc := phase2.1, dsc := phase3.1 }

/-! ## Budget configuration (`src/context/budget_config.py`)

`ContextBudgetConfig` is constructed throughout the repository with the
default layer shares (25/25/40/10); `int(total · share)` on those shares
is exact natural division for every realistic total. -/

/-- Model of `ContextBudgetConfig` with the default percentage split. -/
structure ContextBudgetConfig where
  total_budget : Nat
deriving DecidableEq

/-- Model of `ContextBudgetConfig.gpc_budget = int(total_budget * 0.25)`. -/
def ContextBudgetConfig.gpcBudget (cfg : ContextBudgetConfig) : Nat := cfg.total_budget / 4

/-- Model of `ContextBudgetConfig.dsc_budget = int(total_budget * 0.25)`. -/
def ContextBudgetConfig.dscBudget (cfg : ContextBudgetConfig) : Nat := cfg.total_budget / 4

/-- Model of `ContextBudgetConfig.tsc_budget = int(total_budget * 0.40)`. -/
def ContextBudgetConfig.tscBudget (cfg : ContextBudgetConfig) : Nat := cfg.total_budget * 2 / 5

/-- Model of `ContextBudgetConfig.etc_budget = int(total_budget * 0.10)`. -/
def ContextBudgetConfig.etcBudget (cfg : ContextBudgetConfig) : Nat := cfg.total_budget / 10

/-! ## Context building (`ContextManager.build_context`) -/

/-- Model of `ContextManager._build_gpc_layer`: the call `self.gpc_manager.load_gpc()`
raises `AttributeError` (the class `GPCManager` defines no `load_gpc`
method), so the `except` branch always returns this mock policy layer. -/
def fallbackGpc : GlobalPolicyContext :=
  { enterprise_okrs := ["Operational efficiency", "Cost optimization", "Risk management"]
    prohibited_clauses := ["liability_waiver", "unlimited_liability"]
    required_clauses := ["warranty", "data_protection"]
    compliance_guardrails := ["Standard enterprise compliance"]
    legal_requirements := ["Standard legal requirements"]
    budget_thresholds := [("software", .pyInt 50000), ("hardware", .pyInt 100000)] }

/-- The request payload fields read by `ContextManager.build_context`. -/
structure BuildRequest where
  category : Option String := none
  quotes : List String := []
  budgets : List String := []
  vendor_data : List String := []
  api_responses : List String := []

/-- The session-data fields read by `ContextManager._build_tsc_layer`. -/
structure SessionData where
  conversation_turns : List String := []
  tool_interactions : List String := []
  session_findings : List String := []
  user_preferences : List (String × PyVal) := []

/-- Model of `ContextManager._build_dsc_layer`. -/
def buildDscLayer (r : BuildRequest) : DomainStrategyContext :=
  let category := r.category.getD "general"
  { category_playbooks := [(category, "Procurement playbook for " ++ category ++ " category")]
    vendor_guidelines := ["Preferred vendors for " ++ category,
                          "Negotiation strategies for " ++ category,
                          "Quality standards for " ++ category]
    market_intelligence := ["Market trends for " ++ category,
                            "Pricing benchmarks for " ++ category]
    historical_patterns := ["Historical negotiation outcomes for " ++ category,
                            "Seasonal pricing patterns for " ++ category] }

/-- Model of `ContextManager._build_tsc_layer`. -/
def buildTscLayer (s : SessionData) : TaskSessionContext :=
  { conversation_turns := s.conversation_turns
    tool_interactions := s.tool_interactions
    session_findings := s.session_findings
    user_preferences := s.user_preferences }

/-- Model of `ContextManager._build_etc_layer`. -/
def buildEtcLayer (r : BuildRequest) : EphemeralToolContext :=
  { quotes := r.quotes
    budgets := r.budgets
    vendor_data := r.vendor_data
    api_responses := r.api_responses }

/-- Model of `ContextManager.build_context`: build the four layers, recount, and
prune when the total exceeds the budget. The `agent_type` argument is not
used by any layer builder. -/
def buildContext (cfg : ContextBudgetConfig) (r : BuildRequest)
    (sessionData : Option SessionData) : LayeredContext :=
  let c : LayeredContext :=
    { gpc := fallbackGpc
      dsc := buildDscLayer r
      tsc := buildTscLayer (sessionData.getD {})
      etc := buildEtcLayer r }
  let c := c.calculateTotalTokens
  if c.total_tokens ≤ cfg.total_budget then c
  else pruneContext c cfg.total_budget

/-- The record returned by `ContextManager.simulate_extreme_pruning`. -/
structure PruningSimulationResult where
  original_total_tokens : Nat
  target_budget : Nat
  final_total_tokens : Nat
  gpc_tokens_preserved : Nat
  gpc_survived : Bool
  dsc_tokens : Nat
  tsc_tokens : Nat
  etc_tokens : Nat
  enterprise_alignment_maintained : Bool

/-- Model of `ContextManager.simulate_extreme_pruning`: recount, prune down to the
GPC-only budget, and report whether the GPC layer survived. -/
def simulateExtremePruning (cfg : ContextBudgetConfig) (c : LayeredContext) :
    PruningSimulationResult :=
  let c1 := c.calculateTotalTokens
  let originalTokens := c1.total_tokens
  let gpcOnlyBudget := cfg.gpcBudget
  let prunedContext := pruneContext c1 gpcOnlyBudget
  { original_total_tokens := originalTokens
    target_budget := gpcOnlyBudget
    final_total_tokens := prunedContext.total_tokens
    gpc_tokens_preserved := prunedContext.gpc.token_count
    gpc_survived := decide (prunedContext.gpc.token_count > 0)
    dsc_tokens := prunedContext.dsc.token_count
    tsc_tokens := prunedContext.tsc.token_count
    etc_tokens := prunedContext.etc.token_count
    enterprise_alignment_maintained := decide (prunedContext.gpc.token_count > 0) }

/-! ## Global Policy Critic (`src/critic/gp_critic.py`, `critic_types.py`) -/

/-- Model of `ViolationType` of `src/critic/critic_types.py`. -/
inductive ViolationType where
  | budgetExceeded
  | prohibitedClause
  | missingWarranty
  | unauthorizedDiscount
  | complianceViolation
  | securityRisk
  | approvalRequired
  | invalidTerms
deriving DecidableEq

/-- Model of `RevisionAction` of `src/critic/critic_types.py`. -/
inductive RevisionAction where
  | autoRevised
  | manualReviewRequired
  | rejected
  | approved
deriving DecidableEq

/-- Model of `PolicyViolation` of `src/critic/critic_types.py` (enum-typed kind,
severity as the strings LOW / MEDIUM / HIGH / CRITICAL). -/
structure CriticViolation where
  violation_type : ViolationType
  severity : String
  description : String := ""
  location : String := ""
  suggested_fix : Option String := none
  auto_fixable : Bool := false
  policy_reference : Option String := none
deriving DecidableEq

/-- Model of `GlobalPolicyCritic._determine_action`. -/
def determineAction (violations : List CriticViolation) : RevisionAction :=
  if violations.isEmpty then .approved
  else
    let autoFixableCount := (violations.filter (fun v => v.auto_fixable)).length
    let criticalViolations := violations.filter fun v => v.severity = "CRITICAL"
    if !criticalViolations.isEmpty && !(criticalViolations.all fun v => v.auto_fixable) then
      .manualReviewRequired
    else if autoFixableCount = violations.length then .autoRevised
    else .manualReviewRequired

/-- Model of `severity_weights.get(v.severity, 0.5)` in
`GlobalPolicyCritic._calculate_compliance_score`. -/
def severityWeight (severity : String) : ℚ :=
  if severity = "LOW" then 1/10
  else if severity = "MEDIUM" then 3/10
  else if severity = "HIGH" then 3/5
  else if severity = "CRITICAL" then 1
  else 1/2

/-- Python `round(x, 2)`. Mathlib's `round` rounds half away from zero
upward; Python rounds ties to even, but on binary floats an exact decimal
tie essentially never occurs, and no value of this code base hits one. -/
def pyRound2 (q : ℚ) : ℚ := (round (q * 100) : ℚ) / 100

/-- Model of `GlobalPolicyCritic._calculate_compliance_score`: severity-weighted
score, clamped at 0 and rounded to two decimal places. -/
def calcComplianceScore (violations : List CriticViolation) : ℚ :=
  if violations.isEmpty then 1
  else
    let totalWeight := (violations.map fun v => severityWeight v.severity).sum
    let maxPossibleWeight : ℚ := (violations.length : ℚ) * 1
    pyRound2 (max 0 (1 - totalWeight / maxPossibleWeight))

/-! ### `GlobalPolicyCritic._fix_unauthorized_discount`

The fix applies `re.sub(r"(\d+(?:\.\d+)?)%(\s*discount)", repl, output,
flags=IGNORECASE)` where `repl` caps the figure at 25% when it exceeds 25
and keeps the match otherwise. The scanner below is the leftmost,
non-overlapping match semantics of `re.sub`: maximal-munch parsing of the
number is equivalent to the regex's backtracking here, because after the
digit run only `.` or `%` can extend a match and neither is a digit. -/

/-- Numeric value of a digit run. -/
def natOfDigits (ds : List Char) : Nat :=
  ds.foldl (fun acc c => acc * 10 + (c.toNat - 48)) 0

/-- A successful match of `(\d+(?:\.\d+)?)%(\s*discount)` at the head of
the text: integer digits, optional fraction digits, the captured
whitespace-plus-`discount` suffix (group 2) and the total match length. -/
structure PercentMatch where
  intDigits : List Char
  fracDigits : List Char
  g2 : List Char
  matchLen : Nat
deriving DecidableEq

/-- Model of `float(m.group(1)) > 25`, decided on the decimal digits exactly:
the value exceeds 25 iff the integer part does, or the integer part is 25
and some fraction digit is non-zero. -/
def PercentMatch.exceeds25 (m : PercentMatch) : Bool :=
  natOfDigits m.intDigits > 25
    || (natOfDigits m.intDigits = 25 && m.fracDigits.any fun c => c ≠ '0')

/-- Model of `m.group(0)`: the matched text. -/
def PercentMatch.group0 (m : PercentMatch) : List Char :=
  m.intDigits ++ (if m.fracDigits.isEmpty then [] else '.' :: m.fracDigits) ++ '%' :: m.g2

/-- Parsing step for the optional fraction `(?:\.\d+)?` after the integer
digits: on `'.' :: r` with at least one digit following, return the
fraction digits and the remainder; otherwise no fraction is consumed. -/
def parseFrac (rest1 : List Char) : List Char × List Char :=
  match rest1 with
  | c :: r =>
      if c = '.' then
        let fs := r.takeWhile Char.isDigit
        if fs.isEmpty then ([], c :: r) else (fs, r.drop fs.length)
      else ([], c :: r)
  | [] => ([], [])

/-- Try to match `(\d+(?:\.\d+)?)%(\s*discount)` (case-insensitive on
`discount`) at the head of `l`. -/
def parsePercentDiscount (l : List Char) : Option PercentMatch :=
  let ds := l.takeWhile Char.isDigit
  if ds.isEmpty then none
  else
    let rest1 := l.drop ds.length
    let fracAndRest := parseFrac rest1
    let fs := fracAndRest.1
    match fracAndRest.2 with
    | '%' :: r3 =>
        let ws := r3.takeWhile pyIsSpace
        let r4 := r3.drop ws.length
        if ((r4.take 8).map Char.toLower = "discount".toList ∧ (r4.take 8).length = 8) then
          some { intDigits := ds
                 fracDigits := fs
                 g2 := ws ++ r4.take 8
                 matchLen := ds.length + (if fs.isEmpty then 0 else fs.length + 1)
                   + 1 + ws.length + 8 }
        else none
    | _ => none

/-- The scanner of `re.sub` for `_fix_unauthorized_discount`: walk the
text left to right; at each match, cap figures above 25 to `25%` keeping
group 2, keep smaller figures as matched, and continue after the match.
The `fuel` argument (instantiated with the text length, which bounds the
number of steps because every match consumes at least one character, see
`parsePercentDiscount_matchLen_pos`) makes the recursion structural. -/
def fixUnauthorizedDiscountAux : Nat → List Char → List Char
  | 0, l => l
  | _, [] => []
  | fuel + 1, c :: cs =>
    match parsePercentDiscount (c :: cs) with
    | some m =>
        (if m.exceeds25 then '2' :: '5' :: '%' :: m.g2 else m.group0)
          ++ fixUnauthorizedDiscountAux fuel ((c :: cs).drop m.matchLen)
    | none => c :: fixUnauthorizedDiscountAux fuel cs

/-- Model of `GlobalPolicyCritic._fix_unauthorized_discount` (the text transform;
the revision note it returns alongside is constant). -/
def fixUnauthorizedDiscount (output : String) : String :=
  String.mk (fixUnauthorizedDiscountAux output.toList.length output.toList)

/-- Specification-side detector: scanning the text with the same leftmost
non-overlapping match semantics as the fix, does some matched figure exceed
25? This is the condition under which the fix changes the text. -/
def hasBigDiscountFigureAux : Nat → List Char → Bool
  | 0, _ => false
  | _, [] => false
  | fuel + 1, c :: cs =>
    match parsePercentDiscount (c :: cs) with
    | some m => m.exceeds25 || hasBigDiscountFigureAux fuel ((c :: cs).drop m.matchLen)
    | none => hasBigDiscountFigureAux fuel cs

/-- Specification-side detector on strings: the text contains a matched
`NN% discount` figure with `NN > 25` under the scan of the fix. -/
def hasBigDiscountFigure (s : String) : Bool :=
  hasBigDiscountFigureAux s.toList.length s.toList

/-! ## Negotiation agent payload validation
(`src/agents/negotiation_agent.py`) -/

/-- First-match lookup in a payload dictionary. -/
def dictGet (p : List (String × PyVal)) (k : String) : Option PyVal :=
  (p.find? fun kv => kv.1 = k).map fun kv => kv.2

/-- Model of `payload[k] = v`: replace the value at `k` (append when absent —
CPython dicts keep the key's original position on update). -/
def dictSet (p : List (String × PyVal)) (k : String) (v : PyVal) : List (String × PyVal) :=
  if p.any fun kv => kv.1 = k then
    p.map fun kv => if kv.1 = k then (kv.1, v) else kv
  else p ++ [(k, v)]

/-- Model of `isinstance(x, (int, float))` with the numeric value. -/
def pyNumVal : PyVal → Option ℚ
  | .pyInt n => some (n : ℚ)
  | .pyFloat q => some q
  | .pyStr _ => none

/-- Model of `isinstance(x, str)` with the string value. -/
def pyStrVal : PyVal → Option String
  | .pyStr s => some s
  | _ => none

/-- Model of `NegotiationAgent._validate_request_payload`. The Python function
mutates the caller's dictionary (percent-form discounts are divided by
100 in place) and returns a boolean; the model returns the flag together
with the resulting dictionary. -/
def validateRequestPayload (payload : List (String × PyVal)) :
    Bool × List (String × PyVal) :=
  -- required-fields check: vendor, target_discount_pct, category
  if (dictGet payload "vendor").isNone ∨ (dictGet payload "target_discount_pct").isNone
      ∨ (dictGet payload "category").isNone then
    (false, payload)
  else
    match pyNumVal ((dictGet payload "target_discount_pct").getD (.pyStr "")) with
    | none => (false, payload)
    | some discount =>
      if discount < 0 then (false, payload)
      else
        -- convert percentage to decimal if needed (15.0 -> 0.15)
        let payload1 :=
          if discount > 1 then dictSet payload "target_discount_pct" (.pyFloat (discount / 100))
          else payload
        let finalDiscount := if discount > 1 then discount / 100 else discount
        if finalDiscount > 1 then (false, payload1)
        else
          match (dictGet payload1 "vendor").bind pyStrVal with
          | none => (false, payload1)
          | some vendor =>
            if pyStripEmpty vendor then (false, payload1)
            else
              match (dictGet payload1 "category").bind pyStrVal with
              | none => (false, payload1)
              | some category =>
                if pyStripEmpty category then (false, payload1)
                else (true, payload1)

/-! ## Integration manager (`src/workflow/integration_manager.py`) -/

/-- Model of `IntegrationManager._update_running_average`. -/
def updateRunningAverage (currentAvg newValue : ℚ) (count : ℕ) : ℚ :=
  if count ≤ 1 then newValue
  else ((currentAvg * ((count : ℚ) - 1)) + newValue) / (count : ℚ)

/-- The running average maintained by `_update_metrics` over the
processing times of successful workflow results: the `k`-th successful
result updates the average with `count = k`. The metric starts at the
`IntegrationMetrics` default `0.0`. -/
def runningAverageAux : List ℚ → ℕ → ℚ → ℚ
  | [], _, avg => avg
  | x :: xs, k, avg => runningAverageAux xs (k + 1) (updateRunningAverage avg x (k + 1))

/-- The stored average after folding in all samples of `xs` in order. -/
def runningAverage (xs : List ℚ) : ℚ := runningAverageAux xs 0 0

/-! ## Specification-side formulas and concrete contexts used by the theorems -/

/-- The compliance-score formula exactly as the spec states it:
`max(0, 1 − Σ severity_weight / max(1, n_violations))` (no rounding). -/
def complianceScoreSpec (violations : List CriticViolation) : ℚ :=
  max 0 (1 - (violations.map fun v => severityWeight v.severity).sum
    / ((max 1 violations.length : ℕ) : ℚ))

/-- The token-estimator formula exactly as the spec states it, with
`ceil`: `ceil((words + 0.5·punctuation) · multiplier)`, minimum 1 for
non-whitespace input, 0 otherwise. -/
def countTokensCeilSpec (text contentType : String) : Nat :=
  if pyStripEmpty text then 0
  else max 1 ⌈((pyWordCount text : ℚ) + (pySpecialCount text : ℚ) * (1/2))
    * tokensPerWordQ contentType⌉₊

/-- The spec formula with `floor` in place of `ceil` (what `int(...)`
actually computes on a non-negative float). -/
def countTokensFloorSpec (text contentType : String) : Nat :=
  if pyStripEmpty text then 0
  else max 1 ⌊((pyWordCount text : ℚ) + (pySpecialCount text : ℚ) * (1/2))
    * tokensPerWordQ contentType⌋₊

/-- A concrete context whose Ephemeral layer holds 12 tokens while every
other layer is empty (total 12 tokens). -/
def etcHeavyContext : LayeredContext :=
  LayeredContext.calculateTotalTokens
    { etc := { quotes := ["alpha beta gamma delta epsilon zeta eta theta iota kappa"] } }

/-- Witness for C3 at a concrete input: a distinct over-budget context
(7 ETC tokens, target 5). -/
def etcWitnessContext : LayeredContext :=
  LayeredContext.calculateTotalTokens
    { etc := { budgets := ["one two three four five six"] } }

/-! # Theorems for the specification claims -/

theorem parsePercentDiscount_matchLen_pos {l : List Char} {m : PercentMatch}
    (h : parsePercentDiscount l = some m) : 0 < m.matchLen := by
  unfold parsePercentDiscount at h
  dsimp only at h
  split at h
  · exact absurd h (by simp)
  · split at h
    · split at h
      · injection h with h2
        subst h2
        dsimp only
        omega
      · exact absurd h (by simp)
    · exact absurd h (by simp)


/-! ## C9: running averages are exact means -/

theorem runningAverageAux_eq (xs : List ℚ) :
    ∀ (k : ℕ) (avg : ℚ), 1 ≤ k →
      runningAverageAux xs k avg = (avg * k + xs.sum) / (k + xs.length) := by
  induction xs with
  | nil =>
      intro k avg hk
      have hk0 : ((k : ℚ)) ≠ 0 := by
        have : 0 < k := by omega
        exact_mod_cast this.ne'
      simp only [runningAverageAux, List.sum_nil, List.length_nil, Nat.cast_zero, add_zero]
      field_simp
  | cons x xs ih =>
      intro k avg hk
      have hk1 : ¬ (k + 1 ≤ 1) := by omega
      have hkq : ((k : ℚ) + 1) ≠ 0 := by positivity
      simp only [runningAverageAux, updateRunningAverage, hk1, if_false]
      rw [ih (k + 1) _ (by omega)]
      have hlen : ((k : ℚ) + 1 + (xs.length : ℚ)) ≠ 0 := by positivity
      rw [div_eq_div_iff (by positivity) (by positivity)]
      field_simp
      ring

/-- C9: the integration manager's running averages are exact means:
`_update_running_average` returns the new value for the first sample,
returns `((avg·(k−1)) + x)/k` for the `k`-th sample with `k ≥ 2`, and
folding samples through it yields the arithmetic mean of the samples
(in exact rational arithmetic). -/
theorem C9_running_average_is_mean :
    (∀ avg x : ℚ, updateRunningAverage avg x 1 = x)
    ∧ (∀ (avg x : ℚ) (k : ℕ), 2 ≤ k →
        updateRunningAverage avg x k = (avg * ((k : ℚ) - 1) + x) / (k : ℚ))
    ∧ ∀ xs : List ℚ, runningAverage xs = xs.sum / (xs.length : ℚ) := by
  refine ⟨fun avg x => by simp [updateRunningAverage], fun avg x k hk => ?_, fun xs => ?_⟩
  · have hk1 : ¬ (k ≤ 1) := by omega
    simp [updateRunningAverage, hk1]
  · cases xs with
    | nil => simp [runningAverage, runningAverageAux]
    | cons x xs =>
        show runningAverageAux xs 1 (updateRunningAverage 0 x 1) = _
        rw [show updateRunningAverage 0 x 1 = x by simp [updateRunningAverage]]
        rw [runningAverageAux_eq xs 1 x le_rfl]
        simp only [List.sum_cons, List.length_cons]
        push_cast
        ring_nf

/-- Witness for C9 at concrete inputs. -/
theorem C9_running_average_is_mean_witness :
    updateRunningAverage 10 20 2 = (10 * ((2 : ℚ) - 1) + 20) / 2
    ∧ runningAverage [10, 20, 30] = ([10, 20, 30] : List ℚ).sum / 3 := by
  refine ⟨C9_running_average_is_mean.2.1 10 20 2 (by norm_num), ?_⟩
  have h := C9_running_average_is_mean.2.2 [10, 20, 30]
  simpa using h

/-! ## C4: the revision action is a pure function of the violations -/

/-- C4: `_determine_action` returns `Approved` exactly on the empty
violation list, `AutoRevised` when every violation is auto-fixable, and
`ManualReviewRequired` otherwise (in particular when a CRITICAL violation
is not auto-fixable). -/
theorem C4_determine_action_pure (violations : List CriticViolation) :
    determineAction violations =
      if violations.isEmpty then .approved
      else if violations.all (fun v => v.auto_fixable) then .autoRevised
      else .manualReviewRequired := by
  unfold determineAction
  by_cases hnil : violations.isEmpty
  · simp [hnil]
  · simp only [hnil, if_false]
    by_cases hall : violations.all (fun v => v.auto_fixable)
    · have hcrit : (violations.filter fun v => v.severity = "CRITICAL").all
          (fun v => v.auto_fixable) = true := by
        rw [List.all_eq_true] at hall ⊢
        intro v hv
        exact hall v (List.mem_of_mem_filter hv)
      have hlen : ((violations.filter fun v => v.auto_fixable).length = violations.length) := by
        rw [← List.countP_eq_length_filter, List.countP_eq_length]
        exact List.all_eq_true.mp hall
      simp [hcrit, hlen, hall]
    · have hlen : ¬ ((violations.filter fun v => v.auto_fixable).length = violations.length) := by
        rw [← List.countP_eq_length_filter, List.countP_eq_length]
        intro hcontra
        exact hall (List.all_eq_true.mpr hcontra)
      by_cases hcond : (!(violations.filter fun v => v.severity = "CRITICAL").isEmpty
          && !((violations.filter fun v => v.severity = "CRITICAL").all fun v => v.auto_fixable))
          = true
      · rw [if_pos hcond, if_neg hall]
      · rw [if_neg hcond, if_neg hlen, if_neg hall]

/-! ## C5: compliance score -/

theorem severityWeight_ge_tenth (s : String) : (1/10 : ℚ) ≤ severityWeight s := by
  unfold severityWeight
  split_ifs <;> norm_num

theorem weights_sum_ge (violations : List CriticViolation) :
    (violations.length : ℚ) / 10 ≤ (violations.map fun v => severityWeight v.severity).sum := by
  induction violations with
  | nil => simp
  | cons v vs ih =>
      simp only [List.map_cons, List.sum_cons, List.length_cons]
      push_cast
      have := severityWeight_ge_tenth v.severity
      linarith

theorem round_rat_mono {x y : ℚ} (h : x ≤ y) : round x ≤ round y := by
  rw [round_eq, round_eq]
  exact Int.floor_mono (by linarith)

theorem pyRound2_mono {x y : ℚ} (h : x ≤ y) : pyRound2 x ≤ pyRound2 y := by
  unfold pyRound2
  have h100 := round_rat_mono (mul_le_mul_of_nonneg_right h (by norm_num : (0:ℚ) ≤ 100))
  have : ((round (x * 100) : ℤ) : ℚ) ≤ ((round (y * 100) : ℤ) : ℚ) := by exact_mod_cast h100
  linarith

theorem pyRound2_one : pyRound2 1 = 1 := by
  unfold pyRound2
  norm_num

theorem pyRound2_const (n : ℕ) : pyRound2 ((n : ℚ) / 100) = (n : ℚ) / 100 := by
  unfold pyRound2
  rw [div_mul_cancel₀ _ (by norm_num : (100:ℚ) ≠ 0), round_natCast]
  norm_num

/-- C5 (amended): the critic's compliance score is the spec's severity
formula **rounded to two decimal places**; it always lies in `[0, 1]` and
equals 1 exactly when there are no violations. -/
theorem C5_compliance_score_rounded (violations : List CriticViolation) :
    calcComplianceScore violations = pyRound2 (complianceScoreSpec violations)
    ∧ 0 ≤ calcComplianceScore violations
    ∧ calcComplianceScore violations ≤ 1
    ∧ (calcComplianceScore violations = 1 ↔ violations = []) := by
  have hsum_nonneg : (0:ℚ) ≤ (violations.map fun v => severityWeight v.severity).sum := by
    have h := weights_sum_ge violations
    have : (0:ℚ) ≤ (violations.length : ℚ) / 10 := by positivity
    linarith
  have heq : calcComplianceScore violations = pyRound2 (complianceScoreSpec violations) := by
    unfold calcComplianceScore complianceScoreSpec
    by_cases hnil : violations.isEmpty
    · have : violations = [] := List.isEmpty_iff.mp hnil
      subst this
      simp [pyRound2_one]
    · have hlen : 1 ≤ violations.length := by
        cases violations with
        | nil => simp at hnil
        | cons a l => simp
      rw [if_neg hnil, Nat.max_eq_right hlen]
      simp [mul_one]
  have hspec_nonneg : 0 ≤ complianceScoreSpec violations := le_max_left 0 _
  have hspec_le_one : complianceScoreSpec violations ≤ 1 := by
    unfold complianceScoreSpec
    apply max_le (by norm_num)
    have : (0:ℚ) ≤ (violations.map fun v => severityWeight v.severity).sum
        / ((max 1 violations.length : ℕ) : ℚ) := by positivity
    linarith
  have pyRound2_nonneg : ∀ x : ℚ, 0 ≤ x → 0 ≤ pyRound2 x := by
    intro x hx
    unfold pyRound2
    have h0 : round ((0:ℚ)) ≤ round (x * 100) := round_rat_mono (by nlinarith)
    rw [round_zero] at h0
    have : (0:ℚ) ≤ ((round (x * 100) : ℤ) : ℚ) := by exact_mod_cast h0
    positivity
  refine ⟨heq, ?_, ?_, ?_⟩
  · rw [heq]
    exact pyRound2_nonneg _ hspec_nonneg
  · rw [heq]
    calc pyRound2 (complianceScoreSpec violations) ≤ pyRound2 1 := pyRound2_mono hspec_le_one
    _ = 1 := pyRound2_one
  · constructor
    · intro hone
      by_contra hne
      have hlen : 1 ≤ violations.length := by
        cases violations with
        | nil => exact absurd rfl hne
        | cons a l => simp
      have hlenq : (1:ℚ) ≤ (violations.length : ℚ) := by exact_mod_cast hlen
      have hspec_le : complianceScoreSpec violations ≤ 9/10 := by
        unfold complianceScoreSpec
        apply max_le (by norm_num)
        rw [Nat.max_eq_right hlen]
        have hdiv : (1:ℚ)/10 ≤ (violations.map fun v => severityWeight v.severity).sum
            / (violations.length : ℚ) := by
          rw [div_le_div_iff₀ (by norm_num) (by linarith)]
          have := weights_sum_ge violations
          have h2 : (violations.length : ℚ) / 10 * 10 ≤
              (violations.map fun v => severityWeight v.severity).sum * 10 := by
            apply mul_le_mul_of_nonneg_right this (by norm_num)
          calc (1:ℚ) * (violations.length : ℚ) = (violations.length : ℚ) / 10 * 10 := by ring
          _ ≤ (violations.map fun v => severityWeight v.severity).sum * 10 := h2
        linarith
      have : calcComplianceScore violations ≤ pyRound2 (9/10) := by
        rw [heq]
        exact pyRound2_mono hspec_le
      have h90 : pyRound2 (9/10 : ℚ) = 9/10 := by
        unfold pyRound2
        rw [round_eq]
        norm_num [Int.floor_eq_iff]
      rw [hone, h90] at this
      norm_num at this
    · intro h
      subst h
      simp [calcComplianceScore]

/-- C5 counterexample: for one LOW, one MEDIUM and one HIGH violation the
code rounds `2/3` to `0.67`, so the score does not equal the claim's
un-rounded formula. -/
theorem C5_counterexample :
    calcComplianceScore
        [{ violation_type := .prohibitedClause, severity := "LOW" },
         { violation_type := .prohibitedClause, severity := "MEDIUM" },
         { violation_type := .prohibitedClause, severity := "HIGH" }]
      ≠ complianceScoreSpec
        [{ violation_type := .prohibitedClause, severity := "LOW" },
         { violation_type := .prohibitedClause, severity := "MEDIUM" },
         { violation_type := .prohibitedClause, severity := "HIGH" }] := by
  have hl : calcComplianceScore
        [{ violation_type := .prohibitedClause, severity := "LOW" },
         { violation_type := .prohibitedClause, severity := "MEDIUM" },
         { violation_type := .prohibitedClause, severity := "HIGH" }] = 67/100 := by
    have wL : severityWeight "LOW" = 1/10 := by simp [severityWeight]
    have wM : severityWeight "MEDIUM" = 3/10 := by simp [severityWeight]
    have wH : severityWeight "HIGH" = 3/5 := by simp [severityWeight]
    simp only [calcComplianceScore, pyRound2, List.map_cons, List.map_nil,
      List.sum_cons, List.sum_nil, List.length_cons, List.length_nil, List.isEmpty_cons,
      Bool.false_eq_true, if_false, wL, wM, wH]
    norm_num [round_eq, Int.floor_eq_iff]
  have hr : complianceScoreSpec
        [{ violation_type := .prohibitedClause, severity := "LOW" },
         { violation_type := .prohibitedClause, severity := "MEDIUM" },
         { violation_type := .prohibitedClause, severity := "HIGH" }] = 2/3 := by
    have wL : severityWeight "LOW" = 1/10 := by simp [severityWeight]
    have wM : severityWeight "MEDIUM" = 3/10 := by simp [severityWeight]
    have wH : severityWeight "HIGH" = 3/5 := by simp [severityWeight]
    simp only [complianceScoreSpec, List.map_cons, List.map_nil,
      List.sum_cons, List.sum_nil, List.length_cons, List.length_nil, wL, wM, wH]
    norm_num
  rw [hl, hr]
  norm_num

/-! ## C8: token estimator formula -/

theorem tokensPerWord_den_pos (contentType : String) : 0 < (tokensPerWord contentType).2 := by
  unfold tokensPerWord
  split_ifs <;> norm_num

/-- C8 (amended): the token estimator computes the **floor** (Python
`int(...)` truncation) of `(words + 0.5·punctuation) · multiplier`, not the
ceiling; the minimum-1 rule for non-whitespace input and the 0 for
empty/whitespace-only input hold as claimed. -/
theorem C8_token_estimator_floor (text contentType : String) :
    countTokens text contentType = countTokensFloorSpec text contentType
    ∧ (pyStripEmpty text = true → countTokens text contentType = 0)
    ∧ (pyStripEmpty text = false → 1 ≤ countTokens text contentType) := by
  have hb := tokensPerWord_den_pos contentType
  have heq : countTokens text contentType = countTokensFloorSpec text contentType := by
    unfold countTokens countTokensFloorSpec tokensPerWordQ
    by_cases hs : pyStripEmpty text
    · simp [hs]
    · simp only [hs, Bool.false_eq_true, if_false]
      congr 1
      have hform : ((pyWordCount text : ℚ) + (pySpecialCount text : ℚ) * (1/2))
          * (((tokensPerWord contentType).1 : ℚ) / ((tokensPerWord contentType).2 : ℚ))
          = (((2 * pyWordCount text + pySpecialCount text) * (tokensPerWord contentType).1 : ℕ) : ℚ)
            / ((2 * (tokensPerWord contentType).2 : ℕ) : ℚ) := by
        push_cast
        simp only [div_eq_mul_inv, mul_inv]
        ring
      rw [hform, Nat.floor_div_eq_div]
  refine ⟨heq, fun h => by simp [countTokens, h], fun h => ?_⟩
  unfold countTokens
  simp [h]

/-- Witness for C8 at concrete inputs. -/
theorem C8_token_estimator_floor_witness :
    countTokens "hello world" "text" = countTokensFloorSpec "hello world" "text"
    ∧ countTokens "   " "text" = 0
    ∧ 1 ≤ countTokens "hello world" "text" :=
  ⟨(C8_token_estimator_floor "hello world" "text").1,
   (C8_token_estimator_floor "   " "text").2.1 (by decide),
   (C8_token_estimator_floor "hello world" "text").2.2 (by decide)⟩

/-- C8 counterexample: on `"hello world"` (2 words, no punctuation, plain
text) the code computes `int(2·1.3) = 2`, while the claimed ceiling
formula gives 3. -/
theorem C8_counterexample :
    countTokens "hello world" "text" ≠ countTokensCeilSpec "hello world" "text" := by
  have hl : countTokens "hello world" "text" = 2 := by decide
  have hr : countTokensCeilSpec "hello world" "text" = 3 := by
    unfold countTokensCeilSpec tokensPerWordQ tokensPerWord
    have h1 : pyStripEmpty "hello world" = false := by decide
    have h2 : pyWordCount "hello world" = 2 := by decide
    have h3 : pySpecialCount "hello world" = 0 := by decide
    rw [h1, h2, h3]
    norm_num [Nat.ceil_eq_iff]
  rw [hl, hr]
  omega

/-! ## C2: the required-clause check has no length threshold -/

/-- C2 (amended): `validate_contract_text` emits a missing-required-clause
violation for **every** required clause absent from the lowercased text,
for texts of any length — there is no ~200-character threshold in the
policy store's validation (such a threshold exists only in the compliance
agent's clause checker). -/
theorem C2_missing_clause_check_unconditional (gpc : GlobalPolicyContext) (text : String) :
    (validateContractText gpc text).violations.filter
        (fun v => v.violation_type = "missing_required_clause")
      = (gpc.required_clauses.filter fun rc =>
          !(strContains (pyLower text) (pyLower rc))).map mkMissingRequiredViolation := by
  simp only [validateContractText]
  rw [List.filter_append, List.filter_map, List.filter_map]
  have h1 : (fun v : PolicyViolationBase => decide (v.violation_type = "missing_required_clause"))
      ∘ mkProhibitedViolation = fun _ => false := by
    funext pc
    simp [mkProhibitedViolation]
  have h2 : (fun v : PolicyViolationBase => decide (v.violation_type = "missing_required_clause"))
      ∘ mkMissingRequiredViolation = fun _ => true := by
    funext rc
    simp [mkMissingRequiredViolation]
  rw [h1, h2]
  simp

/-- C2 counterexample: the 14-character text `"short contract"` is far
below the claimed ~200-character threshold, yet the policy store emits
three missing-required-clause violations for it. -/
theorem C2_counterexample :
    ("short contract".length ≤ 200)
    ∧ (validateContractText gpcSnapshot "short contract").violations.countP
        (fun v => v.violation_type = "missing_required_clause") = 3
    ∧ (validateContractText gpcSnapshot "short contract").violations.countP
        (fun v => v.violation_type = "missing_required_clause") ≠ 0 :=
  ⟨by decide, by decide, by decide⟩

/-! ## C6: the discount cap only rewrites figures followed by "discount" -/

theorem takeWhile_append_drop_length (p : Char → Bool) (l : List Char) :
    l.takeWhile p ++ l.drop (l.takeWhile p).length = l := by
  have hpre : l.takeWhile p <+: l := List.takeWhile_prefix p
  obtain ⟨t, ht⟩ := hpre
  have h3 := congrArg (List.drop (l.takeWhile p).length) ht
  rw [List.drop_left] at h3
  rw [← h3]
  exact ht

theorem parseFrac_recon (rest1 : List Char) :
    (if (parseFrac rest1).1.isEmpty then [] else '.' :: (parseFrac rest1).1)
      ++ (parseFrac rest1).2 = rest1 := by
  cases rest1 with
  | nil => rfl
  | cons c r =>
      simp only [parseFrac]
      by_cases hc : c = '.'
      · rw [if_pos hc]
        subst hc
        by_cases hfs : (r.takeWhile Char.isDigit).isEmpty = true
        · rw [if_pos hfs]
          simp
        · rw [if_neg hfs]
          show (if (r.takeWhile Char.isDigit).isEmpty = true
                then [] else '.' :: r.takeWhile Char.isDigit)
              ++ r.drop (r.takeWhile Char.isDigit).length = '.' :: r
          rw [if_neg hfs, List.cons_append]
          exact congrArg (List.cons '.') (takeWhile_append_drop_length Char.isDigit r)
      · rw [if_neg hc]
        simp

theorem percent_sound_core {l : List Char} (ds fs r3 ws : List Char) (m : PercentMatch)
    (hm : m = { intDigits := ds, fracDigits := fs,
                g2 := ws ++ (r3.drop ws.length).take 8,
                matchLen := ds.length + (if fs.isEmpty then 0 else fs.length + 1)
                  + 1 + ws.length + 8 })
    (hA : ds ++ l.drop ds.length = l)
    (hB : (if fs.isEmpty then ([] : List Char) else '.' :: fs) ++ '%' :: r3
            = l.drop ds.length)
    (hC : ws ++ r3.drop ws.length = r3)
    (hlen8 : ((r3.drop ws.length).take 8).length = 8) :
    m.group0 ++ l.drop m.matchLen = l ∧ m.matchLen = m.group0.length := by
  subst hm
  dsimp only [PercentMatch.group0]
  have hfp : (if fs.isEmpty then ([] : List Char) else '.' :: fs).length
      = (if fs.isEmpty then 0 else fs.length + 1) := by
    by_cases hfs : fs.isEmpty = true
    · rw [if_pos hfs, if_pos hfs]
      rfl
    · rw [if_neg hfs, if_neg hfs]
      rfl
  have hG : ((ds ++ (if fs.isEmpty then ([] : List Char) else '.' :: fs))
        ++ '%' :: (ws ++ (r3.drop ws.length).take 8)).length
      = ds.length + (if fs.isEmpty then 0 else fs.length + 1) + 1 + ws.length + 8 := by
    simp only [List.length_append, List.length_cons, hfp, hlen8]
    omega
  have hrecon : ((ds ++ (if fs.isEmpty then ([] : List Char) else '.' :: fs))
        ++ '%' :: (ws ++ (r3.drop ws.length).take 8)) ++ (r3.drop ws.length).drop 8
      = l := by
    simp only [List.append_assoc, List.cons_append, List.take_append_drop]
    rw [hC, hB, hA]
  constructor
  · have hdrop : l.drop (ds.length + (if fs.isEmpty then 0 else fs.length + 1)
        + 1 + ws.length + 8) = (r3.drop ws.length).drop 8 := by
      rw [← hG, ← hrecon, List.drop_left]
    rw [hdrop]
    exact hrecon
  · exact hG.symm

theorem parsePercentDiscount_sound {l : List Char} {m : PercentMatch}
    (h : parsePercentDiscount l = some m) :
    m.group0 ++ l.drop m.matchLen = l ∧ m.matchLen = m.group0.length
      ∧ m.intDigits ≠ [] ∧ (∀ c ∈ m.intDigits, c.isDigit) := by
  unfold parsePercentDiscount at h
  dsimp only at h
  split at h
  · exact absurd h (by simp)
  · rename_i hds
    split at h
    · rename_i r3 heq
      split at h
      · rename_i hcond
        injection h with hm
        subst hm
        have hB := parseFrac_recon (l.drop (l.takeWhile Char.isDigit).length)
        rw [heq] at hB
        have hcore := percent_sound_core (l.takeWhile Char.isDigit)
            ((parseFrac (l.drop (l.takeWhile Char.isDigit).length)).1) r3
            (r3.takeWhile pyIsSpace) _ rfl
            (takeWhile_append_drop_length Char.isDigit l)
            hB (takeWhile_append_drop_length pyIsSpace r3) hcond.2
        refine ⟨hcore.1, hcore.2, ?_, ?_⟩
        · dsimp only
          intro hnil
          apply hds
          rw [hnil]
          rfl
        · dsimp only
          intro ch hch
          exact List.mem_takeWhile_imp hch
      · exact absurd h (by simp)
    · exact absurd h (by simp)

theorem capped_replacement_ne (m : PercentMatch) (hne : m.intDigits ≠ [])
    (hdig : ∀ c ∈ m.intDigits, c.isDigit) (hex : m.exceeds25 = true)
    (X Y : List Char) :
    ('2' :: '5' :: '%' :: m.g2) ++ X ≠ m.group0 ++ Y := by
  obtain ⟨ints, fracs, g2v, mlen⟩ := m
  dsimp only [PercentMatch.exceeds25] at hex
  dsimp only [PercentMatch.group0]
  dsimp only at hne hdig
  intro heq
  cases ints with
  | nil => exact hne rfl
  | cons d0 ds1 =>
      simp only [List.cons_append, List.append_assoc] at heq
      injection heq with h0 heq1
      cases ds1 with
      | nil =>
          subst h0
          have h2v : natOfDigits ['2'] = 2 := by decide
          rw [h2v] at hex
          simp at hex
      | cons d1 ds2 =>
          simp only [List.cons_append] at heq1
          injection heq1 with h1 heq2
          cases ds2 with
          | nil =>
              subst h0
              subst h1
              have h25 : natOfDigits ['2', '5'] = 25 := by decide
              rw [h25] at hex
              simp only [List.nil_append] at heq2
              cases fracs with
              | nil => simp at hex
              | cons f0 fs2 =>
                  simp only [List.isEmpty_cons] at heq2
                  simp at heq2
          | cons d2 ds3 =>
              simp only [List.cons_append] at heq2
              injection heq2 with h2
              have hd2 : d2.isDigit := hdig d2 (by simp)
              rw [← h2] at hd2
              exact absurd hd2 (by decide)

theorem fixUnauthorizedDiscountAux_fuel (fuel : Nat) :
    ∀ l : List Char, l.length ≤ fuel →
      fixUnauthorizedDiscountAux fuel l = fixUnauthorizedDiscountAux l.length l := by
  induction fuel using Nat.strong_induction_on with
  | _ fuel ih =>
    intro l hlen
    cases fuel with
    | zero =>
        have hl : l = [] := List.length_eq_zero.mp (Nat.le_zero.mp hlen)
        subst hl
        rfl
    | succ n =>
        cases l with
        | nil => rfl
        | cons c cs =>
            have hlcs : cs.length ≤ n := by
              simp only [List.length_cons] at hlen
              omega
            cases hp : parsePercentDiscount (c :: cs) with
            | none =>
                simp only [fixUnauthorizedDiscountAux, hp, List.length_cons]
                rw [ih n (Nat.lt_succ_self n) cs hlcs]
            | some m =>
                have hpos := parsePercentDiscount_matchLen_pos hp
                simp only [fixUnauthorizedDiscountAux, hp, List.length_cons]
                congr 1
                rw [ih n (Nat.lt_succ_self n) ((c :: cs).drop m.matchLen)
                    (by simp only [List.length_drop, List.length_cons]; omega)]
                rw [ih cs.length (Nat.lt_succ_of_le hlcs) ((c :: cs).drop m.matchLen)
                    (by simp only [List.length_drop, List.length_cons]; omega)]

theorem fixUnauthorizedDiscountAux_step_some {l : List Char} {m : PercentMatch}
    (hp : parsePercentDiscount l = some m) :
    fixUnauthorizedDiscountAux l.length l
      = (if m.exceeds25 then '2' :: '5' :: '%' :: m.g2 else m.group0)
        ++ fixUnauthorizedDiscountAux ((l.drop m.matchLen).length) (l.drop m.matchLen) := by
  have hpos := parsePercentDiscount_matchLen_pos hp
  cases l with
  | nil =>
      have hnil : parsePercentDiscount ([] : List Char) = none := by decide
      rw [hnil] at hp
      exact Option.noConfusion hp
  | cons c cs =>
      simp only [List.length_cons, fixUnauthorizedDiscountAux, hp]
      congr 1
      exact fixUnauthorizedDiscountAux_fuel cs.length _
        (by simp only [List.length_drop, List.length_cons]; omega)

theorem fixUnauthorizedDiscountAux_step_none {c : Char} {cs : List Char}
    (hp : parsePercentDiscount (c :: cs) = none) :
    fixUnauthorizedDiscountAux (c :: cs).length (c :: cs)
      = c :: fixUnauthorizedDiscountAux cs.length cs := by
  simp only [List.length_cons, fixUnauthorizedDiscountAux, hp]

theorem fixAux_eq_self_iff (fuel : Nat) :
    ∀ l : List Char, l.length ≤ fuel →
      (fixUnauthorizedDiscountAux fuel l = l ↔ hasBigDiscountFigureAux fuel l = false) := by
  induction fuel with
  | zero =>
      intro l _
      simp [fixUnauthorizedDiscountAux, hasBigDiscountFigureAux]
  | succ n ih =>
      intro l hlen
      cases l with
      | nil => simp [fixUnauthorizedDiscountAux, hasBigDiscountFigureAux]
      | cons c cs =>
          cases hp : parsePercentDiscount (c :: cs) with
          | none =>
              simp only [fixUnauthorizedDiscountAux, hasBigDiscountFigureAux, hp]
              have hih := ih cs (by simp only [List.length_cons] at hlen; omega)
              constructor
              · intro h
                injection h with h1 h2
                exact hih.mp h2
              · intro h
                rw [hih.mpr h]
          | some m =>
              have hpos := parsePercentDiscount_matchLen_pos hp
              obtain ⟨hrec, hmlen, hne, hdig⟩ := parsePercentDiscount_sound hp
              simp only [fixUnauthorizedDiscountAux, hasBigDiscountFigureAux, hp]
              have hRlen : ((c :: cs).drop m.matchLen).length ≤ n := by
                simp only [List.length_drop, List.length_cons]
                simp only [List.length_cons] at hlen
                omega
              cases hex : m.exceeds25 with
              | false =>
                  rw [if_neg Bool.false_ne_true, Bool.false_or]
                  set R := (c :: cs).drop m.matchLen with hR
                  rw [← hrec, List.append_right_inj]
                  exact ih R hRlen
              | true =>
                  rw [if_pos rfl, Bool.true_or]
                  set R := (c :: cs).drop m.matchLen with hR
                  constructor
                  · intro h
                    rw [← hrec] at h
                    exact absurd h (capped_replacement_ne m hne hdig hex _ _)
                  · intro h
                    exact absurd h (by decide)

theorem fixUnauthorizedDiscount_eq_self_iff (s : String) :
    fixUnauthorizedDiscount s = s ↔ hasBigDiscountFigure s = false := by
  unfold fixUnauthorizedDiscount hasBigDiscountFigure
  constructor
  · intro h
    exact (fixAux_eq_self_iff s.toList.length s.toList le_rfl).mp (congrArg String.data h)
  · intro h
    have h2 := (fixAux_eq_self_iff s.toList.length s.toList le_rfl).mpr h
    rw [show s = String.mk s.toList from rfl]
    exact congrArg String.mk h2

/-- C6 (amended): the unauthorized-discount auto-revision rewrites a
percentage figure `NN%` with `NN > 25` to `25%` exactly when the figure is
immediately followed by optional whitespace and the word `discount`
(case-insensitively), keeping the matched suffix; figures at or below 25%,
and figures not followed by `discount`, are left unchanged. Universally:
(1) for every string, the revision leaves the text unchanged exactly when
the left-to-right scan finds no matched figure above 25; (2) whenever the
regex matches at the head of the text with a figure above 25, the match
is replaced by `25%` plus the captured whitespace-and-`discount` suffix
and scanning resumes after the match; (3) whenever it matches with a
figure at or below 25, the matched text is kept verbatim; (4) where no
match starts, the character is copied unchanged. In particular the spec's
S4 scenario holds: `"offer 35% discount"` is revised to contain
`"25% discount"` and no `"35%"`. -/
theorem C6_discount_cap_scoped_to_discount_figures :
    (∀ s : String, fixUnauthorizedDiscount s = s ↔ hasBigDiscountFigure s = false)
    ∧ (∀ (l : List Char) (m : PercentMatch), parsePercentDiscount l = some m →
        m.exceeds25 = true →
        fixUnauthorizedDiscountAux l.length l
          = ('2' :: '5' :: '%' :: m.g2)
            ++ fixUnauthorizedDiscountAux ((l.drop m.matchLen).length) (l.drop m.matchLen))
    ∧ (∀ (l : List Char) (m : PercentMatch), parsePercentDiscount l = some m →
        m.exceeds25 = false →
        fixUnauthorizedDiscountAux l.length l
          = m.group0
            ++ fixUnauthorizedDiscountAux ((l.drop m.matchLen).length) (l.drop m.matchLen))
    ∧ (∀ (c : Char) (cs : List Char), parsePercentDiscount (c :: cs) = none →
        fixUnauthorizedDiscountAux (c :: cs).length (c :: cs)
          = c :: fixUnauthorizedDiscountAux cs.length cs)
    ∧ fixUnauthorizedDiscount "offer 35% discount" = "offer 25% discount"
    ∧ strContains (fixUnauthorizedDiscount "offer 35% discount") "25% discount" = true
    ∧ strContains (fixUnauthorizedDiscount "offer 35% discount") "35%" = false
    ∧ fixUnauthorizedDiscount "cut 40.5% DISCOUNT and 30%discount and 20% discount"
        = "cut 25% DISCOUNT and 25%discount and 20% discount"
    ∧ fixUnauthorizedDiscount "offer 35% rebate" = "offer 35% rebate"
    ∧ fixUnauthorizedDiscount "5.35% discount" = "5.35% discount" := by
  refine ⟨fixUnauthorizedDiscount_eq_self_iff, ?_, ?_, ?_,
    by decide, by decide, by decide, by decide, by decide, by decide⟩
  · intro l m hp hex
    have hstep := fixUnauthorizedDiscountAux_step_some hp
    rw [if_pos hex] at hstep
    exact hstep
  · intro l m hp hex
    have hstep := fixUnauthorizedDiscountAux_step_some hp
    rw [if_neg (by rw [hex]; exact Bool.false_ne_true)] at hstep
    exact hstep
  · exact fun c cs hp => fixUnauthorizedDiscountAux_step_none hp

/-- Witness for C6 at concrete inputs: the head-match decomposition with
its hypotheses discharged on `"35% discount"` (figure above 25, replaced),
`"20% discount"` (figure at most 25, kept), the no-match step on
`"rebate"`, and the unchanged-text characterization on
`"keep 10% discount"`. -/
theorem C6_discount_cap_scoped_to_discount_figures_witness :
    (parsePercentDiscount "35% discount".toList
        = some (PercentMatch.mk ['3', '5'] [] (' ' :: "discount".toList) 12)
      ∧ (PercentMatch.mk ['3', '5'] [] (' ' :: "discount".toList) 12).exceeds25 = true
      ∧ fixUnauthorizedDiscountAux "35% discount".toList.length "35% discount".toList
          = ('2' :: '5' :: '%'
                :: (PercentMatch.mk ['3', '5'] [] (' ' :: "discount".toList) 12).g2)
            ++ fixUnauthorizedDiscountAux (("35% discount".toList.drop 12).length)
                ("35% discount".toList.drop 12))
    ∧ (parsePercentDiscount "20% discount".toList
        = some (PercentMatch.mk ['2', '0'] [] (' ' :: "discount".toList) 12)
      ∧ (PercentMatch.mk ['2', '0'] [] (' ' :: "discount".toList) 12).exceeds25 = false
      ∧ fixUnauthorizedDiscountAux "20% discount".toList.length "20% discount".toList
          = (PercentMatch.mk ['2', '0'] [] (' ' :: "discount".toList) 12).group0
            ++ fixUnauthorizedDiscountAux (("20% discount".toList.drop 12).length)
                ("20% discount".toList.drop 12))
    ∧ (parsePercentDiscount ('r' :: "ebate".toList) = none
      ∧ fixUnauthorizedDiscountAux ('r' :: "ebate".toList).length ('r' :: "ebate".toList)
          = 'r' :: fixUnauthorizedDiscountAux "ebate".toList.length "ebate".toList)
    ∧ (fixUnauthorizedDiscount "keep 10% discount" = "keep 10% discount"
        ↔ hasBigDiscountFigure "keep 10% discount" = false) :=
  ⟨⟨by decide, by decide,
      C6_discount_cap_scoped_to_discount_figures.2.1 "35% discount".toList
        (PercentMatch.mk ['3', '5'] [] (' ' :: "discount".toList) 12) (by decide) (by decide)⟩,
    ⟨by decide, by decide,
      C6_discount_cap_scoped_to_discount_figures.2.2.1 "20% discount".toList
        (PercentMatch.mk ['2', '0'] [] (' ' :: "discount".toList) 12) (by decide) (by decide)⟩,
    ⟨by decide, C6_discount_cap_scoped_to_discount_figures.2.2.2.1 'r' "ebate".toList
        (by decide)⟩,
    C6_discount_cap_scoped_to_discount_figures.1 "keep 10% discount"⟩

/-- C6 counterexample: `"Raise fees by 35% today"` contains the figure
`35% > 25%`, but the auto-revision leaves the text unchanged (the figure
is not followed by the word `discount`), so the revised text still
contains `35%`, contradicting the claim that every such figure is
replaced. -/
theorem C6_counterexample :
    fixUnauthorizedDiscount "Raise fees by 35% today" = "Raise fees by 35% today"
    ∧ strContains (fixUnauthorizedDiscount "Raise fees by 35% today") "35%" = true :=
  ⟨by decide, by decide⟩

/-! ## C7 / C10: negotiation payload validation -/

theorem dictGet_cons_pos (hd : String × PyVal) (tl : List (String × PyVal)) (k : String)
    (h : hd.1 = k) : dictGet (hd :: tl) k = some hd.2 := by
  unfold dictGet
  rw [List.find?_cons_of_pos _ (by simp [h])]
  rfl

theorem dictGet_cons_neg (hd : String × PyVal) (tl : List (String × PyVal)) (k : String)
    (h : ¬ hd.1 = k) : dictGet (hd :: tl) k = dictGet tl k := by
  unfold dictGet
  rw [List.find?_cons_of_neg _ (by simp [h])]

theorem dictGet_isSome_any (p : List (String × PyVal)) (k : String) :
    (dictGet p k).isSome = p.any fun kv => kv.1 = k := by
  induction p with
  | nil => rfl
  | cons hd tl ih =>
      by_cases h : hd.1 = k
      · rw [dictGet_cons_pos hd tl k h]
        simp [h]
      · rw [dictGet_cons_neg hd tl k h, List.any_cons, ih]
        simp [h]

theorem dictGet_dictSet_self (p : List (String × PyVal)) (k : String) (v : PyVal)
    (h : (dictGet p k).isSome = true) : dictGet (dictSet p k v) k = some v := by
  rw [dictSet, if_pos (by rw [← dictGet_isSome_any]; exact h)]
  rw [dictGet_isSome_any] at h
  induction p with
  | nil => simp at h
  | cons hd tl ih =>
      rw [List.map_cons]
      by_cases hh : hd.1 = k
      · rw [if_pos hh, dictGet_cons_pos _ _ _ (by simpa using hh)]
      · rw [if_neg hh, dictGet_cons_neg _ _ _ hh]
        apply ih
        rw [List.any_cons] at h
        simpa [hh] using h

theorem dictGet_dictSet_ne (p : List (String × PyVal)) (k k' : String) (v : PyVal)
    (h : k' ≠ k) : dictGet (dictSet p k v) k' = dictGet p k' := by
  rw [dictSet]
  split
  · next h2 =>
      clear h2
      induction p with
      | nil => rfl
      | cons hd tl ih =>
          rw [List.map_cons]
          by_cases hh : hd.1 = k
          · have hne : ¬ ((if hd.1 = k then (hd.1, v) else hd).1 = k') := by
              rw [if_pos hh]
              intro hc
              exact h (hc.symm.trans hh)
            rw [dictGet_cons_neg _ _ _ hne, dictGet_cons_neg hd tl k' (by
              intro hc
              exact h (hc.symm.trans hh))]
            exact ih
          · rw [if_neg hh]
            by_cases hk' : hd.1 = k'
            · rw [dictGet_cons_pos _ _ _ hk', dictGet_cons_pos hd tl k' hk']
            · rw [dictGet_cons_neg _ _ _ hk', dictGet_cons_neg hd tl k' hk']
              exact ih
  · next h2 =>
      clear h2
      induction p with
      | nil =>
          rw [List.nil_append]
          rw [dictGet_cons_neg _ _ _ (fun hc => h hc.symm)]
      | cons hd tl ih =>
          rw [List.cons_append]
          by_cases hk' : hd.1 = k'
          · rw [dictGet_cons_pos _ _ _ hk', dictGet_cons_pos hd tl k' hk']
          · rw [dictGet_cons_neg _ _ _ hk', dictGet_cons_neg hd tl k' hk']
            exact ih

theorem dictSet_keys_of_present (p : List (String × PyVal)) (k : String) (v : PyVal)
    (h : (dictGet p k).isSome = true) :
    (dictSet p k v).map Prod.fst = p.map Prod.fst := by
  rw [dictGet_isSome_any] at h
  rw [dictSet, if_pos h, List.map_map]
  congr 1
  funext kv
  by_cases hh : kv.1 = k
  · simp [hh]
  · simp [hh]

/-- The dictionary returned by `_validate_request_payload` when the three
required keys are present and the discount is a non-negative number: the
discount is divided by 100 in place exactly when it exceeds 1 (even when
the validation subsequently fails), and the dictionary is untouched
otherwise. -/
theorem validateRequestPayload_snd (payload : List (String × PyVal)) (dv : PyVal) (d : ℚ)
    (hv : (dictGet payload "vendor").isSome = true)
    (hc : (dictGet payload "category").isSome = true)
    (hd : dictGet payload "target_discount_pct" = some dv)
    (hnum : pyNumVal dv = some d)
    (h0 : 0 ≤ d) :
    (validateRequestPayload payload).2
      = if 1 < d then dictSet payload "target_discount_pct" (.pyFloat (d / 100))
        else payload := by
  have hcond : ¬ ((dictGet payload "vendor").isNone = true
      ∨ (dictGet payload "target_discount_pct").isNone = true
      ∨ (dictGet payload "category").isNone = true) := by
    rcases Option.isSome_iff_exists.mp hv with ⟨a, ha⟩
    rcases Option.isSome_iff_exists.mp hc with ⟨b, hb⟩
    simp [ha, hb, hd]
  unfold validateRequestPayload
  rw [if_neg hcond]
  simp only [hd, Option.getD_some, hnum]
  rw [if_neg (not_lt.mpr h0)]
  by_cases h1 : d > 1
  · simp only [if_pos h1]
    repeat first | rfl | split
  · simp only [if_neg h1]
    repeat first | rfl | split

/-- Full characterization of `_validate_request_payload` for payloads
whose vendor and category are valid non-blank strings and whose discount
is a non-negative float. -/
theorem validateRequestPayload_full (payload : List (String × PyVal)) (dv : PyVal) (d : ℚ)
    (vs cs : String)
    (hv : dictGet payload "vendor" = some (.pyStr vs)) (hvs : pyStripEmpty vs = false)
    (hc : dictGet payload "category" = some (.pyStr cs)) (hcs : pyStripEmpty cs = false)
    (hd : dictGet payload "target_discount_pct" = some dv)
    (hnum : pyNumVal dv = some d)
    (h0 : 0 ≤ d) :
    validateRequestPayload payload
      = (if 1 < d then decide (d / 100 ≤ 1) else true,
         if 1 < d then dictSet payload "target_discount_pct" (.pyFloat (d / 100))
         else payload) := by
  have hcond : ¬ ((dictGet payload "vendor").isNone = true
      ∨ (dictGet payload "target_discount_pct").isNone = true
      ∨ (dictGet payload "category").isNone = true) := by
    simp [hv, hc, hd]
  have hvne : ("vendor" : String) ≠ "target_discount_pct" := by decide
  have hcne : ("category" : String) ≠ "target_discount_pct" := by decide
  unfold validateRequestPayload
  rw [if_neg hcond]
  simp only [hd, Option.getD_some, hnum]
  rw [if_neg (not_lt.mpr h0)]
  by_cases h1 : d > 1
  · simp only [if_pos h1]
    by_cases h2 : d / 100 > 1
    · rw [if_pos h2]
      have hdec : decide (d / 100 ≤ 1) = false := decide_eq_false (not_le.mpr h2)
      rw [hdec]
    · rw [if_neg h2]
      rw [dictGet_dictSet_ne payload "target_discount_pct" "vendor" _ hvne, hv]
      simp only [Option.some_bind, pyStrVal, hvs, Bool.false_eq_true, if_false]
      rw [dictGet_dictSet_ne payload "target_discount_pct" "category" _ hcne, hc]
      simp only [Option.some_bind, pyStrVal, hcs, Bool.false_eq_true, if_false]
      have hdec : decide (d / 100 ≤ 1) = true := decide_eq_true (not_lt.mp h2)
      rw [hdec]
  · simp only [if_neg h1]
    rw [hv]
    simp only [Option.some_bind, pyStrVal, hvs, Bool.false_eq_true, if_false]
    rw [hc]
    simp only [Option.some_bind, pyStrVal, hcs, Bool.false_eq_true, if_false]

/-- C7: percent normalization is applied exactly once and is idempotent.
For a well-formed payload whose numeric discount is `d ≥ 0`: the value is
divided by 100 in place exactly when `d > 1`; validation succeeds exactly
when the normalized value is at most 1 (so payloads with `d > 100` are
rejected); an accepted normalized value lies in `[0, 1]`; and re-running
the validation on the already-normalized payload succeeds and leaves the
dictionary unchanged (a pre-normalized 0.15 stays 0.15). -/
theorem C7_percent_normalization_idempotent (payload : List (String × PyVal))
    (dv : PyVal) (d : ℚ) (vs cs : String)
    (hv : dictGet payload "vendor" = some (.pyStr vs)) (hvs : pyStripEmpty vs = false)
    (hc : dictGet payload "category" = some (.pyStr cs)) (hcs : pyStripEmpty cs = false)
    (hd : dictGet payload "target_discount_pct" = some dv)
    (hnum : pyNumVal dv = some d)
    (h0 : 0 ≤ d) :
    (1 < d → dictGet (validateRequestPayload payload).2 "target_discount_pct"
        = some (.pyFloat (d / 100)))
    ∧ (d ≤ 1 → (validateRequestPayload payload).2 = payload)
    ∧ ((validateRequestPayload payload).1 = true ↔ (if 1 < d then d / 100 else d) ≤ 1)
    ∧ ((validateRequestPayload payload).1 = true →
        0 ≤ (if 1 < d then d / 100 else d) ∧ (if 1 < d then d / 100 else d) ≤ 1)
    ∧ ((validateRequestPayload payload).1 = true →
        validateRequestPayload (validateRequestPayload payload).2
          = (true, (validateRequestPayload payload).2)) := by
  have hvne : ("vendor" : String) ≠ "target_discount_pct" := by decide
  have hcne : ("category" : String) ≠ "target_discount_pct" := by decide
  have hsome : (dictGet payload "target_discount_pct").isSome = true := by rw [hd]; rfl
  have hfull := validateRequestPayload_full payload dv d vs cs hv hvs hc hcs hd hnum h0
  refine ⟨fun h1 => ?_, fun h1 => ?_, ?_, fun hacc => ?_, fun hacc => ?_⟩
  · rw [hfull]
    simp only [if_pos h1]
    exact dictGet_dictSet_self _ _ _ hsome
  · rw [hfull]
    simp [not_lt.mpr h1]
  · rw [hfull]
    by_cases h1 : 1 < d
    · simp [h1]
    · simp [h1, not_lt.mp h1]
  · rw [hfull] at hacc
    by_cases h1 : 1 < d
    · rw [if_pos h1] at hacc ⊢
      simp only [if_pos h1] at hacc
      simp at hacc
      exact ⟨by positivity, hacc⟩
    · rw [if_neg h1] at hacc ⊢
      exact ⟨h0, not_lt.mp h1⟩
  · rw [hfull] at hacc ⊢
    by_cases h1 : 1 < d
    · rw [if_pos h1] at hacc
      simp at hacc
      have hle : d / 100 ≤ 1 := hacc
      simp only [if_pos h1]
      have hv2 : dictGet (dictSet payload "target_discount_pct" (.pyFloat (d / 100))) "vendor"
          = some (.pyStr vs) := by
        rw [dictGet_dictSet_ne _ _ _ _ hvne, hv]
      have hc2 : dictGet (dictSet payload "target_discount_pct" (.pyFloat (d / 100))) "category"
          = some (.pyStr cs) := by
        rw [dictGet_dictSet_ne _ _ _ _ hcne, hc]
      have hd2 : dictGet (dictSet payload "target_discount_pct" (.pyFloat (d / 100)))
          "target_discount_pct" = some (.pyFloat (d / 100)) :=
        dictGet_dictSet_self _ _ _ hsome
      have hfull2 := validateRequestPayload_full _ (.pyFloat (d / 100)) (d / 100) vs cs
        hv2 hvs hc2 hcs hd2 rfl (by positivity)
      rw [hfull2]
      simp [not_lt.mpr hle]
    · simp only [if_neg h1]
      have hfull2 := validateRequestPayload_full payload dv d vs cs hv hvs hc hcs hd hnum h0
      rw [hfull2]
      simp [h1, not_lt.mp h1]

/-- Witness for C7 at a concrete payload (`target_discount_pct = 15.0`). -/
theorem C7_percent_normalization_idempotent_witness :
    dictGet (validateRequestPayload
        [("vendor", .pyStr "Acme"), ("target_discount_pct", .pyFloat 15),
         ("category", .pyStr "software")]).2 "target_discount_pct"
      = some (.pyFloat (15 / 100))
    ∧ (validateRequestPayload
        [("vendor", .pyStr "Acme"), ("target_discount_pct", .pyFloat 15),
         ("category", .pyStr "software")]).1 = true
    ∧ validateRequestPayload (validateRequestPayload
        [("vendor", .pyStr "Acme"), ("target_discount_pct", .pyFloat 15),
         ("category", .pyStr "software")]).2
      = (true, (validateRequestPayload
        [("vendor", .pyStr "Acme"), ("target_discount_pct", .pyFloat 15),
         ("category", .pyStr "software")]).2) := by
  have h := C7_percent_normalization_idempotent
    [("vendor", .pyStr "Acme"), ("target_discount_pct", .pyFloat 15),
     ("category", .pyStr "software")]
    (.pyFloat 15) 15 "Acme" "software" rfl (by decide) rfl (by decide) rfl rfl (by norm_num)
  refine ⟨h.1 (by norm_num), h.2.2.1.mpr ?_, h.2.2.2.2 (h.2.2.1.mpr ?_)⟩
  · rw [if_pos (by norm_num : (1:ℚ) < 15)]
    norm_num
  · rw [if_pos (by norm_num : (1:ℚ) < 15)]
    norm_num

/-- C10 (amended): when the payload contains the three required keys and a
numeric `target_discount_pct` greater than 1, validation overwrites that
entry in place with the value divided by 100 (even when it subsequently
rejects the payload), and no other key is added, removed or changed;
payloads that fail the required-fields check are returned untouched. -/
theorem C10_payload_mutation_in_place (payload : List (String × PyVal))
    (dv : PyVal) (d : ℚ)
    (hv : (dictGet payload "vendor").isSome = true)
    (hc : (dictGet payload "category").isSome = true)
    (hd : dictGet payload "target_discount_pct" = some dv)
    (hnum : pyNumVal dv = some d)
    (h1 : 1 < d) :
    dictGet (validateRequestPayload payload).2 "target_discount_pct"
      = some (.pyFloat (d / 100))
    ∧ (∀ k, k ≠ "target_discount_pct" →
        dictGet (validateRequestPayload payload).2 k = dictGet payload k)
    ∧ (validateRequestPayload payload).2.map Prod.fst = payload.map Prod.fst := by
  have h0 : (0:ℚ) ≤ d := le_of_lt (lt_trans zero_lt_one h1)
  have hsnd := validateRequestPayload_snd payload dv d hv hc hd hnum h0
  rw [if_pos h1] at hsnd
  have hsome : (dictGet payload "target_discount_pct").isSome = true := by rw [hd]; rfl
  refine ⟨?_, fun k hk => ?_, ?_⟩
  · rw [hsnd]
    exact dictGet_dictSet_self _ _ _ hsome
  · rw [hsnd]
    exact dictGet_dictSet_ne _ _ _ _ hk
  · rw [hsnd]
    exact dictSet_keys_of_present _ _ _ hsome

/-- Witness for C10: a payload with a blank vendor is rejected, but its
percent-form discount (50) is still divided by 100 in place. -/
theorem C10_payload_mutation_in_place_witness :
    dictGet (validateRequestPayload
        [("vendor", .pyStr "Acme"), ("target_discount_pct", .pyInt 50),
         ("category", .pyStr "hardware")]).2 "target_discount_pct"
      = some (.pyFloat (50 / 100))
    ∧ (validateRequestPayload
        [("vendor", .pyStr "Acme"), ("target_discount_pct", .pyInt 50),
         ("category", .pyStr "hardware")]).2.map Prod.fst
      = ["vendor", "target_discount_pct", "category"] := by
  have h := C10_payload_mutation_in_place
    [("vendor", .pyStr "Acme"), ("target_discount_pct", .pyInt 50),
     ("category", .pyStr "hardware")]
    (.pyInt 50) 50 rfl rfl rfl (by norm_num [pyNumVal]) (by norm_num)
  exact ⟨h.1, h.2.2⟩

/-- C10 counterexample: a payload that carries `target_discount_pct = 2.0`
but no vendor or category fails the required-fields check **before** the
conversion, so the value is not overwritten even though it exceeds 1. -/
theorem C10_counterexample :
    (validateRequestPayload [("target_discount_pct", .pyFloat 2)]).2
        = [("target_discount_pct", .pyFloat 2)]
    ∧ (1:ℚ) < 2
    ∧ PyVal.pyFloat 2 ≠ .pyFloat (2 / 100) := by
  refine ⟨rfl, by norm_num, fun h => ?_⟩
  have h2 : (2:ℚ) = 2 / 100 := by injection h
  norm_num at h2

/-! ## C1 / C3: pruning behaviour -/

theorem calculateTokens_gpc_idem (g : GlobalPolicyContext) :
    g.calculateTokens.calculateTokens = g.calculateTokens := rfl

theorem pruneContext_of_le (c : LayeredContext) (t : Nat) (h : c.total_tokens ≤ t) :
    pruneContext c t = c := by
  unfold pruneContext
  rw [if_pos h]

theorem pruneContext_gpc (c : LayeredContext) (t : Nat) :
    (pruneContext c t).gpc
      = if c.total_tokens ≤ t then c.gpc else c.gpc.calculateTokens := by
  unfold pruneContext
  split <;> rfl

theorem pruneContext_etc_of_gt (c : LayeredContext) (t : Nat)
    (h : ¬ c.total_tokens ≤ t) (hetc : c.etc.token_count > 0) :
    (pruneContext c t).etc = ({} : EphemeralToolContext) := by
  have httr : ((c.total_tokens : ℤ) - (t : ℤ)) > 0 := by
    have h2 := Nat.lt_of_not_le (fun hc => h hc)
    omega
  have hp1 : (pruneContextPhase1 c ((c.total_tokens : ℤ) - (t : ℤ))).1
      = ({} : EphemeralToolContext) := by
    unfold pruneContextPhase1
    rw [if_pos ⟨httr, hetc⟩]
    dsimp only
    unfold pruneEtcLayer
    rw [if_pos httr]
  simp only [pruneContext, if_neg h, LayeredContext.calculateTotalTokens]
  rw [hp1]
  rfl

theorem pruneTscLayer_turns_suffix (tsc : TaskSessionContext) (r : ℤ) :
    (tsc.conversation_turns.drop (tsc.conversation_turns.length - 3)).IsSuffix
      (pruneTscLayer tsc r).conversation_turns := by
  unfold pruneTscLayer
  split
  · exact List.drop_suffix _ _
  · dsimp only
    split
    · split
      · exact List.suffix_cons _ _
      · exact List.drop_suffix _ _
    · exact List.drop_suffix _ _

theorem compressMarketIntelligence_length (l : List String) :
    (compressMarketIntelligence l).length ≤ max 2 l.length := by
  unfold compressMarketIntelligence
  split
  · exact le_max_right _ _
  · refine le_trans ?_ (le_max_left _ l.length)
    dsimp only
    rw [List.length_take]
    exact min_le_left _ _

theorem pruneDscLayer_market_length (d : DomainStrategyContext) (r : ℤ) :
    (pruneDscLayer d r).market_intelligence.length ≤ max 2 d.market_intelligence.length := by
  unfold pruneDscLayer
  split
  · exact le_max_right _ _
  · dsimp only
    split
    · exact compressMarketIntelligence_length _
    · exact le_max_right _ _

theorem pruneContextPhase2_turns_suffix (c : LayeredContext) (r : ℤ) :
    (c.tsc.conversation_turns.drop (c.tsc.conversation_turns.length - 3)).IsSuffix
      (pruneContextPhase2 c r).1.conversation_turns := by
  unfold pruneContextPhase2
  split
  · dsimp only
    exact pruneTscLayer_turns_suffix _ _
  · exact List.drop_suffix _ _

theorem pruneContextPhase3_market_length (c : LayeredContext) (r : ℤ) :
    (pruneContextPhase3 c r).1.market_intelligence.length
      ≤ max 2 c.dsc.market_intelligence.length := by
  unfold pruneContextPhase3
  split
  · dsimp only
    exact pruneDscLayer_market_length _ _
  · exact le_max_right _ _

theorem pruneContext_tsc_suffix (c : LayeredContext) (t : Nat) :
    (c.tsc.conversation_turns.drop (c.tsc.conversation_turns.length - 3)).IsSuffix
      (pruneContext c t).tsc.conversation_turns := by
  by_cases h : c.total_tokens ≤ t
  · rw [pruneContext_of_le c t h]
    exact List.drop_suffix _ _
  · simp only [pruneContext, if_neg h, LayeredContext.calculateTotalTokens]
    exact pruneContextPhase2_turns_suffix _ _

theorem pruneContext_dsc_market_length (c : LayeredContext) (t : Nat) :
    (pruneContext c t).dsc.market_intelligence.length
      ≤ max 2 c.dsc.market_intelligence.length := by
  by_cases h : c.total_tokens ≤ t
  · rw [pruneContext_of_le c t h]
    exact le_max_right _ _
  · simp only [pruneContext, if_neg h, LayeredContext.calculateTotalTokens]
    exact pruneContextPhase3_market_length _ _

theorem buildContext_gpc (cfg : ContextBudgetConfig) (r : BuildRequest)
    (s : Option SessionData) :
    (buildContext cfg r s).gpc = fallbackGpc.calculateTokens := by
  simp only [buildContext]
  split
  · rfl
  · next h =>
      rw [pruneContext_gpc, if_neg h]
      exact calculateTokens_gpc_idem fallbackGpc

theorem pruneContext_gpc_of_calculated {c : LayeredContext} (t : Nat)
    (hc : c.gpc = fallbackGpc.calculateTokens) :
    (pruneContext c t).gpc = fallbackGpc.calculateTokens := by
  rw [pruneContext_gpc]
  split
  · exact hc
  · rw [hc]
    exact calculateTokens_gpc_idem fallbackGpc

/-- C1: the Policy layer is pinned. For every built context and every
target budget, pruning leaves the GPC layer (and hence its token count)
unchanged, and `simulate_extreme_pruning` — which prunes down to just the
GPC share of the budget — reports `gpc_survived = true`. -/
theorem C1_policy_layer_pinned (cfg : ContextBudgetConfig) (r : BuildRequest)
    (s : Option SessionData) (target : Nat) :
    (pruneContext (buildContext cfg r s) target).gpc = (buildContext cfg r s).gpc
    ∧ (pruneContext (buildContext cfg r s) target).gpc.token_count
        = (buildContext cfg r s).gpc.token_count
    ∧ (simulateExtremePruning cfg (buildContext cfg r s)).gpc_survived = true := by
  have hb := buildContext_gpc cfg r s
  have h1 : (pruneContext (buildContext cfg r s) target).gpc = (buildContext cfg r s).gpc := by
    rw [pruneContext_gpc_of_calculated target hb, hb]
  refine ⟨h1, by rw [h1], ?_⟩
  have hc1 : ((buildContext cfg r s).calculateTotalTokens).gpc
      = fallbackGpc.calculateTokens := by
    show (buildContext cfg r s).gpc.calculateTokens = _
    rw [hb]
    exact calculateTokens_gpc_idem fallbackGpc
  have hp := pruneContext_gpc_of_calculated (c := (buildContext cfg r s).calculateTotalTokens)
    cfg.gpcBudget hc1
  simp only [simulateExtremePruning]
  rw [hp]
  rfl

/-- C3 (amended): in a single pruning pass over an over-budget context,
the Ephemeral layer is emptied completely whenever the pass reaches it
with any positive excess — it is not bounded by `min(excess, cap)` and may
release more tokens than the excess; the Session and Domain layers are
transformed by fixed summarization heuristics (the 3 most recent
conversation turns always survive as a suffix; market intelligence is
compressed to at most 2 items) whose actual removals are not the computed
`min(excess, floor(share))` amounts; and the Policy layer is never
pruned (its content is untouched; only its `token_count` is recomputed
from the same content). -/
theorem C3_pruning_actual_behaviour (c : LayeredContext) (target : Nat) :
    (¬ c.total_tokens ≤ target → c.etc.token_count > 0 →
      (pruneContext c target).etc = ({} : EphemeralToolContext))
    ∧ (pruneContext c target).gpc
        = (if c.total_tokens ≤ target then c.gpc else c.gpc.calculateTokens)
    ∧ (c.tsc.conversation_turns.drop (c.tsc.conversation_turns.length - 3)).IsSuffix
        (pruneContext c target).tsc.conversation_turns
    ∧ (pruneContext c target).dsc.market_intelligence.length
        ≤ max 2 c.dsc.market_intelligence.length :=
  ⟨fun h hetc => pruneContext_etc_of_gt c target h hetc,
   pruneContext_gpc c target,
   pruneContext_tsc_suffix c target,
   pruneContext_dsc_market_length c target⟩

theorem C3_pruning_actual_behaviour_witness :
    ¬ etcWitnessContext.total_tokens ≤ 5
    ∧ etcWitnessContext.etc.token_count > 0
    ∧ (pruneContext etcWitnessContext 5).etc = ({} : EphemeralToolContext) := by
  refine ⟨by decide, by decide, ?_⟩
  exact (C3_pruning_actual_behaviour etcWitnessContext 5).1 (by decide) (by decide)

/-- C3 counterexample: `etcHeavyContext` holds 12 tokens, all in the
Ephemeral layer. Pruning to a target of 11 (excess 1) empties the whole
layer: the Ephemeral layer loses 12 tokens, strictly more than both the
excess (1) and `min(excess, floor(12 · 1.00)) = 1`. -/
theorem C3_counterexample :
    etcHeavyContext.total_tokens = 12
    ∧ etcHeavyContext.etc.token_count = 12
    ∧ etcHeavyContext.total_tokens - 11 = 1
    ∧ (pruneContext etcHeavyContext 11).etc.token_count = 0
    ∧ ¬ (etcHeavyContext.etc.token_count - (pruneContext etcHeavyContext 11).etc.token_count
          ≤ min (etcHeavyContext.total_tokens - 11) etcHeavyContext.etc.token_count) :=
  ⟨by decide, by decide, by decide, by decide, by decide⟩

end ProcureSense
